import Mathlib

/-!
Shallow embedding of the `ai` terminal coding assistant (Python sources under
`src/`) together with proofs about the behaviour that the design document
claims.  Pure Python functions become Lean functions; process/filesystem
effects become explicit state passing (a `World` record threaded through the
tool runtime) or oracle parameters (the outcome of a spawned subprocess).
Paths are modelled as absolute component lists; machine integers are `Int`
or `Nat`.
-/

namespace Spec2Proof

/-! ### Python string primitives

Helpers mirroring the Python string operations the sources rely on:
`str.strip()`, `str.lower()`, substring containment (`in`), `str.split()`
(whitespace split), and `str.startswith`. -/

/-- Whitespace characters recognised by Python's `str.strip()` / `str.split()`
(ASCII subset; the sources only strip ASCII whitespace). -/
def pyIsSpace (c : Char) : Bool :=
  c = ' ' || c = '\t' || c = '\n' || c = '\r' || c = '\x0b' || c = '\x0c'

/-- Python `str.strip()` on a character list. -/
def pyStripList (cs : List Char) : List Char :=
  ((cs.dropWhile pyIsSpace).reverse.dropWhile pyIsSpace).reverse

/-- Python `str.strip()`. -/
def pyStrip (s : String) : String :=
  ⟨pyStripList s.data⟩

/-- Python `str.rstrip()`. -/
def pyRstrip (s : String) : String :=
  ⟨(s.data.reverse.dropWhile pyIsSpace).reverse⟩

/-- Python `str.lower()` (ASCII case folding; the forbidden-substring table in
`bash_executor.py` is pure ASCII). -/
def pyLower (s : String) : String :=
  ⟨s.data.map Char.toLower⟩

/-- `needle` occurs as a contiguous substring of `haystack` — Python's
`needle in haystack`. -/
def containsSubstr (haystack needle : String) : Bool :=
  decide (List.IsInfix needle.data haystack.data)

/-- Python `str.startswith(prefix)`. -/
def pyStartsWith (s pre : String) : Bool :=
  List.isPrefixOf pre.data s.data

/-- Python `str.split()` with no argument: split on runs of whitespace,
discarding empty fields. -/
def pySplitWs (s : String) : List String :=
  ((s.data.splitOnP (fun c => pyIsSpace c)).map (fun cs => (⟨cs⟩ : String))).filter
    (fun t => t ≠ "")

/-! ### Path model

Absolute paths are lists of components (`/a/b` is `["a", "b"]`).  `resolve`
(`pathlib.Path.resolve` without symlinks) removes `.`/empty components and
folds `..` into the parent. -/

/-- A resolved absolute path: its components below the filesystem root. -/
abbrev PPath := List String

/-- One step of `Path.resolve` normalisation. -/
def normStep (acc : PPath) (c : String) : PPath :=
  if c = "." ∨ c = "" then acc
  else if c = ".." then acc.dropLast
  else acc ++ [c]

/-- Normalise a component list the way `Path.resolve` does (`..` at the root
stays at the root). -/
def normComps (comps : List String) : PPath :=
  comps.foldl normStep []

/-- A raw path argument as received from the model: an absolute flag plus raw
components (possibly containing `..`). -/
structure RawPath where
  absolute : Bool
  comps : List String
deriving Repr, DecidableEq

/-- Split a string on a separator character, keeping empty fields
(Python's `str.split(sep)`). -/
def pySplitOnChar (sep : Char) (s : String) : List String :=
  (s.data.splitOnP (fun c => c = sep)).map (fun cs => (⟨cs⟩ : String))

/-- Parse a POSIX path string into a `RawPath` (empty components dropped, as
`pathlib` does). -/
def parseRawPath (s : String) : RawPath :=
  { absolute := pyStartsWith s "/"
    comps := (pySplitOnChar '/' s).filter (fun c => c ≠ "") }

/-- `(default_root / path).resolve() if not path.is_absolute() else
path.resolve()` — the path-argument resolution rule shared by every tool in
`ai_engine_tools.py`. -/
def resolvePathArg (defaultRoot : PPath) (p : RawPath) : PPath :=
  normComps ((if p.absolute then [] else defaultRoot) ++ p.comps)

/-- `child.relative_to(base)` succeeds exactly when `base` is a prefix of
`child` (both resolved): `base` equals `child` or is an ancestor of it. -/
def isDescendant (base child : PPath) : Bool :=
  List.isPrefixOf base child

/-! ### `shlex.split` (POSIX mode)

`bash_executor._tokenize` calls `shlex.split(command)` and falls back to
`command.split()` when the lexer raises `ValueError` (unbalanced quote or a
trailing escape character).  The state machine below mirrors CPython's
`shlex.read_token` for `posix=True`, `whitespace_split=True` and no
commenters/punctuation characters; `none` models the raised `ValueError`. -/

/-- Context recorded when the lexer enters the escape state: escaping inside
a double-quoted section or inside an ordinary word. -/
inductive EscCtx where
  | fromWord
  | fromQuote
deriving Repr, DecidableEq

/-- Lexer mode: between tokens, inside a word, inside a `'`/`"` section, or
right after a backslash. -/
inductive LexMode where
  | ws
  | word
  | inQuote (q : Char)
  | esc (ctx : EscCtx)
deriving Repr, DecidableEq

/-- One `shlex` lexer configuration: mode, token accumulator (reversed), a
flag recording whether the current token saw a quote, and emitted tokens
(reversed). -/
structure LexState where
  mode : LexMode
  token : List Char
  quoted : Bool
  acc : List (List Char)
deriving Repr

/-- Emit the pending token (called on token-breaking whitespace and at end of
input): in POSIX mode an empty token is kept only when it was quoted. -/
def lexEmit (st : LexState) : LexState :=
  if st.token ≠ [] ∨ st.quoted then
    { mode := .ws, token := [], quoted := false, acc := st.token.reverse :: st.acc }
  else
    { st with mode := .ws, token := [], quoted := false }

/-- Process the remaining input characters.  `none` is CPython's
`ValueError` (`No closing quotation` / `No escape character`). -/
def lexRun : List Char → LexState → Option (List (List Char))
  | [], st =>
    match st.mode with
    | .ws => some st.acc.reverse
    | .word => some (lexEmit st).acc.reverse
    | .inQuote _ => none
    | .esc _ => none
  | c :: cs, st =>
    match st.mode with
    | .ws =>
      if pyIsSpace c then lexRun cs st
      else if c = '\\' then lexRun cs { st with mode := .esc .fromWord }
      else if c = '\'' ∨ c = '"' then
        lexRun cs { st with mode := .inQuote c, quoted := true }
      else lexRun cs { st with mode := .word, token := [c] }
    | .word =>
      if pyIsSpace c then lexRun cs (lexEmit st)
      else if c = '\'' ∨ c = '"' then
        lexRun cs { st with mode := .inQuote c, quoted := true }
      else if c = '\\' then lexRun cs { st with mode := .esc .fromWord }
      else lexRun cs { st with token := c :: st.token }
    | .inQuote q =>
      if c = q then lexRun cs { st with mode := .word }
      else if q = '"' ∧ c = '\\' then lexRun cs { st with mode := .esc .fromQuote }
      else lexRun cs { st with token := c :: st.token }
    | .esc ctx =>
      match ctx with
      | .fromWord => lexRun cs { st with mode := .word, token := c :: st.token }
      | .fromQuote =>
        -- inside double quotes only the quote itself or the escape character
        -- may be escaped; otherwise the backslash is kept literally
        if c = '\\' ∨ c = '"' then
          lexRun cs { st with mode := .inQuote '"', token := c :: st.token }
        else
          lexRun cs { st with mode := .inQuote '"', token := c :: '\\' :: st.token }

/-- `shlex.split(command)` (POSIX rules); `none` when CPython raises
`ValueError`. -/
def shlexSplit (s : String) : Option (List String) :=
  (lexRun s.data { mode := .ws, token := [], quoted := false, acc := [] }).map
    (fun ts => ts.map (fun cs => (⟨cs⟩ : String)))

/-! ### `bash_executor.py` -/

/-- `DISALLOWED_SUBSTRINGS` from `bash_executor.py`. -/
def DISALLOWED_SUBSTRINGS : List String :=
  ["sudo", "chmod", "chown", "chgrp", "mkfs", "|&", ";&",
   "shutdown", "reboot", "systemctl", "kill", ":>"]

/-- `_looks_like_path`: token starts with `/` or `..`. -/
def looksLikePath (token : String) : Bool :=
  pyStartsWith token "/" || pyStartsWith token ".."

/-- `_references_git`: token contains `.git`. -/
def referencesGit (token : String) : Bool :=
  containsSubstr token ".git"

/-- `_tokenize`: `shlex.split` with a plain whitespace split as the
`ValueError` fallback. -/
def tokenize (command : String) : List String :=
  match shlexSplit command with
  | some tokens => tokens
  | none => pySplitWs command

/-- `_validate_command`: forbidden substrings on the lowercased command,
then the per-token path/`.git` checks.  `Except.error` is the raised
`CommandRejected`. -/
def validate_command (command : String) : Except String Unit :=
  let lowered := pyLower command
  if DISALLOWED_SUBSTRINGS.any (fun marker => containsSubstr lowered marker) then
    .error "Command rejected: contains disallowed operation"
  else
    let tokens := tokenize command
    if tokens.any looksLikePath then
      .error "Command rejected: absolute or parent paths are not allowed"
    else if tokens.any referencesGit then
      .error "Command rejected: .git modifications are not permitted"
    else
      .ok ()

/-- `CommandResult` from `bash_executor.py`. -/
structure CommandResult where
  command : String
  exit_code : Int
  stdout : String
  stderr : String
  truncated : Bool
deriving Repr, DecidableEq

/-- Outcome of the spawned `bash -lc` subprocess, supplied as an oracle:
either it completed with a return code and decoded output, or the wall-clock
timeout fired with optional partial output (already decoded; Python's
`TimeoutExpired` may carry `None`, modelled as `none`). -/
inductive ExecOutcome where
  | completed (returncode : Int) (stdout stderr : String)
  | timedOut (stdoutRaw stderrRaw : Option String)
deriving Repr

/-- A byte is a UTF-8 continuation byte (`0b10xxxxxx`). -/
def isCont (b : Nat) : Bool :=
  0x80 ≤ b && b < 0xC0

/-- Fuel-bounded UTF-8 decoding with replacement; each step consumes at least
one byte, so `fuel = length` reproduces the unbounded decoder. -/
def utf8DecodeReplaceAux : Nat → List Nat → List Char
  | 0, _ => []
  | _, [] => []
  | fuel + 1, b :: bs =>
    if b < 0x80 then Char.ofNat b :: utf8DecodeReplaceAux fuel bs
    else if b < 0xC0 then '�' :: utf8DecodeReplaceAux fuel bs
    else if b < 0xE0 then
      match bs with
      | b1 :: rest =>
        if isCont b1 then
          Char.ofNat ((b % 0x20) * 64 + b1 % 64) :: utf8DecodeReplaceAux fuel rest
        else '�' :: utf8DecodeReplaceAux fuel bs
      | [] => ['�']
    else if b < 0xF0 then
      match bs with
      | b1 :: b2 :: rest =>
        if isCont b1 && isCont b2 then
          Char.ofNat ((b % 0x10) * 4096 + (b1 % 64) * 64 + b2 % 64) ::
            utf8DecodeReplaceAux fuel rest
        else '�' :: utf8DecodeReplaceAux fuel bs
      | _ => '�' :: utf8DecodeReplaceAux fuel bs
    else if b < 0xF8 then
      match bs with
      | b1 :: b2 :: b3 :: rest =>
        if isCont b1 && isCont b2 && isCont b3 then
          Char.ofNat ((b % 8) * 262144 + (b1 % 64) * 4096 + (b2 % 64) * 64 + b3 % 64) ::
            utf8DecodeReplaceAux fuel rest
        else '�' :: utf8DecodeReplaceAux fuel bs
      | _ => '�' :: utf8DecodeReplaceAux fuel bs
    else '�' :: utf8DecodeReplaceAux fuel bs

/-- `bytes.decode("utf-8", errors="replace")`: invalid sequences become
U+FFFD. -/
def utf8DecodeReplace (bytes : List Nat) : List Char :=
  utf8DecodeReplaceAux bytes.length bytes

/-- UTF-8 encoding of one character, as byte values. -/
def utf8EncodeCharNat (c : Char) : List Nat :=
  let n := c.toNat
  if n < 0x80 then [n]
  else if n < 0x800 then [0xC0 + n / 64, 0x80 + n % 64]
  else if n < 0x10000 then [0xE0 + n / 4096, 0x80 + (n / 64) % 64, 0x80 + n % 64]
  else [0xF0 + n / 262144, 0x80 + (n / 4096) % 64, 0x80 + (n / 64) % 64, 0x80 + n % 64]

/-- The UTF-8 byte sequence of a string, as a list of naturals. -/
def utf8Bytes (s : String) : List Nat :=
  (s.data.map utf8EncodeCharNat).flatten

/-- `_truncate` inside `run_sandboxed_bash`: byte-truncate the UTF-8 encoding
at `maxOutputBytes` and decode with replacement, flagging truncation. -/
def pyTruncateOutput (s : String) (maxOutputBytes : Nat) : String × Bool :=
  let encoded := utf8Bytes s
  if encoded.length ≤ maxOutputBytes then (s, false)
  else (⟨utf8DecodeReplace (encoded.take maxOutputBytes)⟩, true)

/-- `run_sandboxed_bash` (validation plus subprocess handling).  `dirs` lists
the directories that exist (`Path.is_dir`); `execO` is the subprocess oracle.
Returns the `CommandResult` or the raised `CommandRejected` message, paired
with the list of commands actually handed to `bash -lc` (empty on
rejection). -/
def run_sandboxed_bash (execO : String → ExecOutcome) (command : String)
    (cwd scopeRoot : List String) (dirs : List PPath)
    (maxOutputBytes : Nat) : Except String CommandResult × List String :=
  let command := pyStrip command
  if command = "" then (.error "Empty command", [])
  else
    let cwd := normComps cwd
    let scopeRoot := normComps scopeRoot
    if ¬ (cwd ∈ dirs) then (.error "Working directory does not exist", [])
    else if ¬ (isDescendant scopeRoot cwd) then (.error "Command scope violation", [])
    else
      match validate_command command with
      | .error e => (.error e, [])
      | .ok _ =>
        match execO command with
        | .timedOut stdoutRaw stderrRaw =>
          (.ok { command := command
                 exit_code := 124
                 stdout := stdoutRaw.getD ""
                 stderr := stderrRaw.getD "" ++ "\nCommand timed out"
                 truncated := false }, [command])
        | .completed rc stdout stderr =>
          let so := pyTruncateOutput stdout maxOutputBytes
          let se := pyTruncateOutput stderr maxOutputBytes
          (.ok { command := command
                 exit_code := rc
                 stdout := so.1
                 stderr := se.1
                 truncated := so.2 || se.2 }, [command])

/-- `format_command_result`: `stdout:`/`stderr:` sections plus the truncation
marker.  (`textwrap.dedent` is the identity here because every section starts
at column 0.) -/
def format_command_result (result : CommandResult) : String :=
  let sections :=
    (if result.stdout ≠ "" then ["stdout:\n" ++ pyRstrip result.stdout] else []) ++
    (if result.stderr ≠ "" then ["stderr:\n" ++ pyRstrip result.stderr] else []) ++
    (if result.truncated then ["[output truncated]"] else [])
  pyStrip (String.intercalate "\n\n" sections)

/-! ### `contextualizer.py` — `read_file_slice`

The text path of `read_file_slice` (the binary and unreadable-file branches
return sentinel slices and are outside every claim about text files).  The
decoded file contents arrive as a `String`; `split("\n")`, line clipping and
the byte-budget loop are translated directly. -/

/-- `MAX_LINE_LENGTH` from `contextualizer.py`. -/
def MAX_LINE_LENGTH : Nat := 2000

/-- `DEFAULT_READ_LIMIT` from `contextualizer.py`. -/
def DEFAULT_READ_LIMIT : Nat := 2000

/-- `MAX_READ_BYTES` from `contextualizer.py`. -/
def MAX_READ_BYTES : Nat := 50 * 1024

/-- `line if len(line) <= MAX_LINE_LENGTH else line[:MAX_LINE_LENGTH] + "..."`.
Python indexes by code points, as `String.take` does. -/
def clipLine (line : String) : String :=
  if line.length ≤ MAX_LINE_LENGTH then line else line.take MAX_LINE_LENGTH ++ "..."

/-- `FileSlice` (the fields the claims speak about; `path`/`preview` carry no
logic). -/
structure FileSlice where
  offset : Nat
  limit : Nat
  total_lines : Nat
  lines : List String
  truncated : Bool
  truncated_by_bytes : Bool
deriving Repr, DecidableEq

/-- `FileSlice.last_line_read`. -/
def FileSlice.last_line_read (s : FileSlice) : Nat :=
  s.offset + s.lines.length

/-- The byte-budget loop of `read_file_slice`: accept clipped lines while the
cumulative UTF-8 size (plus one separator byte before every line but the
first) stays within `maxBytes`; stop and flag when a line would overflow. -/
def takeBytesLoop (maxBytes : Nat) : List String → Nat → Bool → List String × Bool
  | [], _, _ => ([], false)
  | line :: rest, bytesUsed, isFirst =>
    let clipped := clipLine line
    let size := clipped.utf8ByteSize + (if isFirst then 0 else 1)
    if maxBytes < bytesUsed + size then ([], true)
    else
      let r := takeBytesLoop maxBytes rest (bytesUsed + size) false
      (clipped :: r.1, r.2)

/-- The line-level core of `read_file_slice`: clamp the offset into
`[0, total_lines]`, window `limit` lines, and run the byte-budget loop. -/
def sliceLines (allLines : List String) (offset limit maxBytes : Nat) : FileSlice :=
  let totalLines := allLines.length
  let safeOffset := min offset totalLines
  let window := (allLines.drop safeOffset).take limit
  let r := takeBytesLoop maxBytes window 0 true
  { offset := safeOffset
    limit := limit
    total_lines := totalLines
    lines := r.1
    truncated := r.2 || decide (safeOffset + r.1.length < totalLines)
    truncated_by_bytes := r.2 }

/-- `read_file_slice` on decoded text: split on `\n` (Python
`text.split("\n")`), then slice. -/
def read_file_slice (text : String) (offset limit maxBytes : Nat) : FileSlice :=
  sliceLines (pySplitOnChar '\n' text) offset limit maxBytes

/-- Iteration of `sliceLines` over a fixed line list with
`offset := last_line_read` until `truncated = false`, concatenating the
returned line lists.  `fuel` bounds the iteration; `none` means the process
did not finish within `fuel` steps. -/
def collectLines (allLines : List String) (limit maxBytes : Nat) :
    Nat → Nat → Option (List String)
  | _, 0 => none
  | offset, fuel + 1 =>
    let s := sliceLines allLines offset limit maxBytes
    if s.truncated then
      (collectLines allLines limit maxBytes s.last_line_read fuel).map
        (fun rest => s.lines ++ rest)
    else
      some s.lines

/-- Iterate `read_file_slice` on a file's text the same way. -/
def collectSlices (text : String) (limit maxBytes : Nat) (offset fuel : Nat) :
    Option (List String) :=
  collectLines (pySplitOnChar '\n' text) limit maxBytes offset fuel

/-- The round-trip property claimed for `read_file_slice`: some finite number
of iterations starting at offset 0 terminates (a slice with
`truncated = false`) having yielded every line of the file exactly once, in
order. -/
def readSliceRoundTrip (text : String) (limit maxBytes : Nat) : Prop :=
  ∃ fuel, collectSlices text limit maxBytes 0 fuel = some (pySplitOnChar '\n' text)

/-! ### Python value model

Tool arguments and persisted JSON payloads are Python values (the result of
`json.loads` or a dict literal).  `PyVal` is that value space; `PyNone` is
Python's `None`.  Truthiness and `dict.get` follow Python semantics. -/

/-- A Python/JSON value. -/
inductive PyVal where
  | pyNone
  | bool (b : Bool)
  | int (n : Int)
  | str (s : String)
  | list (xs : List PyVal)
  | dict (entries : List (String × PyVal))
deriving Repr

/-- Python truthiness (`bool(v)`). -/
def pyTruthy : PyVal → Bool
  | .pyNone => false
  | .bool b => b
  | .int n => n ≠ 0
  | .str s => s ≠ ""
  | .list xs => !xs.isEmpty
  | .dict d => !d.isEmpty

/-- A parsed argument dict. -/
abbrev Args := List (String × PyVal)

/-- `args.get(key)` (missing keys give `None`). -/
def pyGet (args : Args) (key : String) : PyVal :=
  (args.lookup key).getD .pyNone

/-- `args.get(key, default)`. -/
def pyGetD (args : Args) (key : String) (default : PyVal) : PyVal :=
  (args.lookup key).getD default

/-- `a or b` for Python values. -/
def pyOr (a b : PyVal) : PyVal :=
  if pyTruthy a then a else b

/-- Extract a Python `str`. -/
def asStr : PyVal → Option String
  | .str s => some s
  | _ => Option.none

/-- Digits-only string to `Nat`. -/
def digitsToNat : List Char → Option Nat
  | [] => Option.none
  | cs =>
    if cs.all Char.isDigit then
      some (cs.foldl (fun a c => a * 10 + (c.toNat - 48)) 0)
    else Option.none

/-- Python `int(s)` on a string: optional sign and decimal digits after
stripping whitespace (`none` models the raised `ValueError`). -/
def pyParseInt (s : String) : Option Int :=
  match (pyStrip s).data with
  | '+' :: rest => (digitsToNat rest).map Int.ofNat
  | '-' :: rest => (digitsToNat rest).map (fun n => -(Int.ofNat n))
  | t => (digitsToNat t).map Int.ofNat

/-- Python `int(v)` on a value (`none` models the raised
`TypeError`/`ValueError`). -/
def pyToInt : PyVal → Option Int
  | .int n => some n
  | .bool b => some (if b then 1 else 0)
  | .str s => pyParseInt s
  | _ => Option.none

/-- Python `str(v)` (as used by `shell` on command-list elements). -/
def pyStrOf : PyVal → String
  | .pyNone => "None"
  | .bool b => if b then "True" else "False"
  | .int n => toString n
  | .str s => s
  | .list _ => "<list>"
  | .dict _ => "<dict>"

/-- Characters `shlex.quote` leaves unquoted. -/
def shlexSafeChar (c : Char) : Bool :=
  c.isAlphanum || c = '_' || c = '@' || c = '%' || c = '+' || c = '=' ||
    c = ':' || c = ',' || c = '.' || c = '/' || c = '-'

/-- `shlex.quote`. -/
def shlexQuote (s : String) : String :=
  if s = "" then "''"
  else if s.data.all shlexSafeChar then s
  else "'" ++ (String.join (s.data.map (fun c =>
    if c = '\'' then "'\"'\"'" else String.singleton c))) ++ "'"

/-! ### `ai_engine_tools.py` — runtime state and helpers -/

/-- One plan todo (`plan_update`). -/
structure Todo where
  id : String
  content : String
  status : String
  priority : Option String
deriving Repr, DecidableEq

/-- The mutable plan state shared with the Agent Loop: the free-text plan of
`update_plan` plus the structured todos of `plan_update`. -/
structure PlanState where
  plan : Option String
  todos : List Todo
  summary : Option String
deriving Repr, DecidableEq

/-- The observable machine state threaded through the tool runtime: the text
files on disk, the directories that exist, the file reads performed, the
commands handed to a subprocess, and the plan state. -/
structure World where
  fs : List (PPath × String)
  dirs : List PPath
  reads : List PPath
  spawned : List String
  plan : PlanState
deriving Repr, DecidableEq

/-- Write (create or replace) a file in the filesystem model. -/
def fsWrite (fs : List (PPath × String)) (p : PPath) (content : String) :
    List (PPath × String) :=
  (p, content) :: fs.filter (fun e => e.1 ≠ p)

/-- Read a file (`Path.read_text`); `none` is `FileNotFoundError`. -/
def fsRead (fs : List (PPath × String)) (p : PPath) : Option String :=
  fs.lookup p

/-- `ToolRuntime` from `ai_engine_tools.py`.  The `jfdi_enabled` field is
modelled from the spec: `src/ai_engine_tools.py` lacks it, but
`ai_engine_main.py` constructs `ToolRuntime(..., jfdi_enabled=...)` and the
spec lists it among the runtime state.  Renderer and subprocess behaviour
arrive as oracles: `review` is `Renderer.review_file_update` (returning its
status string), `promptConfirm` is `Renderer.prompt_confirm`, `patchExec` is
the external `patch` invocation (`none` = `FileNotFoundError`,
`some (rc, stdout, stderr)` otherwise), `execO` is the sandboxed `bash -lc`
subprocess, and `globO`/`searchO` abstract the two read-only search tools
(no claim depends on their output). -/
structure ToolRuntime where
  base_root : PPath
  default_root : PPath
  latest_instruction : String
  jfdi_enabled : Bool
  review : PPath → PPath → String → String → Bool → String
  promptConfirm : Bool
  patchExec : String → Option (Int × String × String)
  execO : String → ExecOutcome
  globO : Args → String
  searchO : Args → String
  envBashMaxSeconds : Option String
  envBashMaxOutput : Option String

/-- Render an absolute path the way Python prints it inside error strings. -/
def pathToString (p : PPath) : String :=
  "/" ++ String.intercalate "/" p

/-- Keywords of `instruction_implies_write` (the regex alternation, in
source order). -/
def WRITE_KEYWORDS : List String :=
  ["write", "create", "add", "generate", "produce", "save", "append", "commit",
   "apply", "patch", "update", "make", "build", "draft", "add it", "addit",
   "writeit"]

/-- A regex word character (`\w`, ASCII part). -/
def isWordChar (c : Char) : Bool :=
  c.isAlphanum || c = '_'

/-- `\b` holds against an optional neighbouring character. -/
def boundaryOk : Option Char → Bool
  | Option.none => true
  | some c => !isWordChar c

/-- `kw` occurs at the head of `cs` with a word boundary after it. -/
def occursHere (kw cs : List Char) : Bool :=
  List.isPrefixOf kw cs && boundaryOk (cs.drop kw.length).head?

/-- `kw` occurs somewhere in the text with `\b` on both sides; `prev` is the
character before the current position. -/
def hasWordOcc (kw : List Char) : List Char → Option Char → Bool
  | [], _ => false
  | c :: cs, prev =>
    (boundaryOk prev && occursHere kw (c :: cs)) || hasWordOcc kw cs (some c)

/-- `instruction_implies_write`: the lowercased instruction contains one of
the write keywords as a `\b`-delimited occurrence. -/
def instruction_implies_write (text : String) : Bool :=
  let normalized := pyLower text
  WRITE_KEYWORDS.any (fun kw => hasWordOcc kw.data normalized.data Option.none)

/-! ### `ai_engine_tools.py` — tool handlers

Each handler returns `Except String (ToolOut × World)`: `.ok` carries the
`(result_text, mutated)` pair handed back to the Agent Loop together with
the updated machine state; `.error` models an uncaught Python exception
(e.g. `Path(5)` on an ill-typed argument).  Renderer display calls have no
observable effect and are dropped; the renderer's commit of an `applied`
review is modelled as the corresponding filesystem write. -/

/-- The `(result_text, mutated)` pair every tool returns. -/
structure ToolOut where
  result : String
  mutated : Bool
deriving Repr, DecidableEq

/-- Modelled from the spec: the exact string constant `JFDI_REQUIRED_MESSAGE`
is defined by the Tool Runtime in the full repository but is absent from the
`src/` copy of `ai_engine_tools.py` (`ai_engine_main.py` imports it).  Only
identity with this constant is observable, so any fixed value is faithful. -/
def JFDI_REQUIRED_MESSAGE : String :=
  "Mutation blocked: the user must type the dog-whistle phrase before file edits or shell commands run."

/-- Modelled from the spec: the tools gated behind the unlock phrase
(`write`, `write_file`, `apply_patch`, `shell`, `unit_test_coverage`). -/
def GATED_TOOLS : List String :=
  ["write", "write_file", "apply_patch", "shell", "unit_test_coverage"]

/-- `delete_path_via_shell`: run `rm <relative>` through the sandbox under
`base_root`. -/
def delete_path_via_shell (path : PPath) (rt : ToolRuntime) (w : World) :
    String × World :=
  if ¬ isDescendant rt.base_root path then ("error: delete outside project root", w)
  else
    let relStr := String.intercalate "/" (path.drop rt.base_root.length)
    let rmCmd := "rm " ++ shlexQuote relStr
    match run_sandboxed_bash rt.execO rmCmd rt.base_root rt.base_root w.dirs 20000 with
    | (.error exc, _) => (s!"error: {exc}", w)
    | (.ok result, sp) =>
      let w := { w with spawned := w.spawned ++ sp }
      if result.exit_code ≠ 0 then (s!"error: rm exited with {result.exit_code}", w)
      else ("applied", w)

/-- `apply_file_update`: resolve the path, refuse out-of-scope targets with
`skipped_out_of_scope`, read the old text (`FileNotFoundError` gives `""`),
and delegate the commit decision to `Renderer.review_file_update`;
`delete_requested` is carried out through the sandboxed `rm`. -/
def apply_file_update (filename : String) (content : String) (rt : ToolRuntime)
    (auto_apply : Bool) (w : World) : String × World :=
  let path := resolvePathArg rt.default_root (parseRawPath filename)
  if ¬ isDescendant rt.base_root path then ("skipped_out_of_scope", w)
  else
    let w := { w with reads := path :: w.reads }
    let old_text := (fsRead w.fs path).getD ""
    let relative := path.drop rt.base_root.length
    let status := rt.review path relative old_text content auto_apply
    if status = "delete_requested" then delete_path_via_shell path rt w
    else if status = "applied" then (status, { w with fs := fsWrite w.fs path content })
    else (status, w)

/-- The `read_file` branch of `handle_tool_call`. -/
def read_file_tool (args : Args) (rt : ToolRuntime) (w : World) :
    Except String (ToolOut × World) :=
  let path_arg := pyGet args "path"
  if ¬ pyTruthy path_arg then .ok (⟨"error: missing path", false⟩, w)
  else
    match asStr path_arg with
    | Option.none => .error "TypeError: argument should be a str"
    | some pstr =>
      let path := resolvePathArg rt.default_root (parseRawPath pstr)
      if ¬ isDescendant rt.base_root path then
        .ok (⟨s!"error: path outside project root ({pathToString path})", false⟩, w)
      else
        match pyToInt (pyOr (pyGetD args "limit" (.int 8000)) (.int 8000)),
              pyToInt (pyOr (pyGetD args "offset" (.int 0)) (.int 0)) with
        | some limit, some offset =>
          let w := { w with reads := path :: w.reads }
          match fsRead w.fs path with
          | Option.none =>
            .ok (⟨s!"error: failed to read {pathToString path}: [Errno 2] No such file or directory", false⟩, w)
          | some data =>
            -- Python `data[offset : offset + limit]` (negative indices, which
            -- only ill-typed inputs produce, are not modelled)
            let snippet : String := ⟨(data.data.drop offset.toNat).take limit.toNat⟩
            let relStr := String.intercalate "/" (path.drop rt.base_root.length)
            let fence : String := "```"
            .ok (⟨s!"Contents of {relStr}\n{fence}\n{snippet}\n{fence}", false⟩, w)
        | _, _ => .error "ValueError: invalid literal for int()"

/-- The `write`/`write_file` branch of `handle_tool_call`. -/
def write_tool (args : Args) (rt : ToolRuntime) (w : World) :
    Except String (ToolOut × World) :=
  let path_arg := pyOr (pyGet args "filePath") (pyGet args "path")
  let contents :=
    match pyGet args "content" with
    | .pyNone => pyGet args "contents"
    | v => v
  if ¬ pyTruthy path_arg then .ok (⟨"error: missing file path or contents", false⟩, w)
  else
    match contents with
    | .pyNone => .ok (⟨"error: missing file path or contents", false⟩, w)
    | contents =>
      match asStr path_arg, asStr contents with
      | some pstr, some ctext =>
        let auto_apply := instruction_implies_write rt.latest_instruction
        let r := apply_file_update pstr ctext rt auto_apply w
        .ok (⟨r.1, r.1 = "applied"⟩, r.2)
      | _, _ => .error "TypeError: path or contents is not a str"

/-- The `apply_patch` branch of `handle_tool_call`: confirmation prompt, then
an external `patch -p0 --batch --forward` run inside `base_root`. -/
def apply_patch_tool (args : Args) (rt : ToolRuntime) (w : World) :
    Except String (ToolOut × World) :=
  let patch_arg := pyOr (pyGet args "patch") (pyGet args "input")
  if ¬ pyTruthy patch_arg then .ok (⟨"error: missing patch", false⟩, w)
  else
    match asStr patch_arg with
    | Option.none => .error "TypeError: patch is not a str"
    | some patch_text =>
      if ¬ rt.promptConfirm then .ok (⟨"user_rejected", false⟩, w)
      else
        match rt.patchExec patch_text with
        | Option.none => .ok (⟨"error: 'patch' command not available", false⟩, w)
        | some (rc, _stdout, _stderr) =>
          let w := { w with spawned := w.spawned ++ ["patch -p0 --batch --forward"] }
          if rc ≠ 0 then .ok (⟨s!"error: patch failed (status {rc})", false⟩, w)
          else .ok (⟨"applied", true⟩, w)

/-- `max(1, int(env_value))` with the Python fallback on parse failure. -/
def envIntOr (v : Option String) (defaultStr : String) (fallback : Int) : Int :=
  match pyParseInt (v.getD defaultStr) with
  | some n => max 1 n
  | Option.none => fallback

/-- `handle_shell_command`: build the command string, scope-check the
working directory, and hand the command to the sandbox.  The result is
returned with `mutated = false` on every path. -/
def handle_shell_command (args : Args) (rt : ToolRuntime) (w : World) :
    Except String (ToolOut × World) :=
  let command := pyGet args "command"
  match (match command with
         | .str s => some s
         | .list parts =>
           some (String.intercalate " " (parts.map (fun p => shlexQuote (pyStrOf p))))
         | _ => Option.none) with
  | Option.none => .ok (⟨"error: invalid command; expected string or list", false⟩, w)
  | some command_str =>
    let workdir_arg := pyGet args "workdir"
    let workdir? : Except String PPath :=
      if pyTruthy workdir_arg then
        match asStr workdir_arg with
        | some s => .ok (resolvePathArg rt.default_root (parseRawPath s))
        | Option.none => .error "TypeError: workdir is not a str"
      else .ok rt.default_root
    match workdir? with
    | .error e => .error e
    | .ok workdir =>
      if ¬ isDescendant rt.base_root workdir then
        .ok (⟨s!"error: workdir outside project root ({pathToString workdir})", false⟩, w)
      else
        -- the wall-clock timeout is enforced inside the subprocess oracle;
        -- the computed seconds value is therefore not observable here
        let _timeout_seconds :=
          match pyGet args "timeout_ms" with
          | .pyNone => envIntOr rt.envBashMaxSeconds "15" 15
          | v =>
            match pyToInt v with
            | some n => max 1 (n / 1000)
            | Option.none => envIntOr rt.envBashMaxSeconds "15" 15
        let max_output_bytes := (envIntOr rt.envBashMaxOutput "20000" 20000).toNat
        match run_sandboxed_bash rt.execO command_str workdir rt.base_root w.dirs
            max_output_bytes with
        | (.error exc, _) => .ok (⟨s!"command rejected: {exc}", false⟩, w)
        | (.ok result, sp) =>
          let w := { w with spawned := w.spawned ++ sp }
          let formatted := format_command_result result
          let rendered :=
            "$ " ++ command_str ++ "\n\n" ++
              (if pyStrip formatted ≠ "" then formatted else "(no output)")
          .ok (⟨rendered, false⟩, w)

/-- The `update_plan` branch of `handle_tool_call`. -/
def update_plan_tool (args : Args) (w : World) : Except String (ToolOut × World) :=
  match asStr (pyOr (pyGet args "plan") (.str "")),
        asStr (pyOr (pyGet args "explanation") (.str "")) with
  | some planRaw, some explRaw =>
    let plan := pyStrip planRaw
    let explanation := if pyStrip explRaw = "" then Option.none else some (pyStrip explRaw)
    let response :=
      match explanation with
      | some e => "plan updated; notes: " ++ e
      | Option.none => "plan updated"
    .ok (⟨response, false⟩, { w with plan := { w.plan with plan := some plan } })
  | _, _ => .error "AttributeError: strip on a non-str plan"

/-- `run_unit_test_coverage`: validate `target`/`extraArgs`, assemble the
`pytest --cov --cov-report=term-missing` command and run it through the
sandbox from `default_root`. -/
def run_unit_test_coverage (args : Args) (rt : ToolRuntime) (w : World) :
    Except String (ToolOut × World) :=
  let target := pyGet args "target"
  let targetOk : Option (Option String) :=
    match target with
    | .pyNone => some Option.none
    | .str s => some (some s)
    | _ => Option.none
  match targetOk with
  | Option.none => .ok (⟨"error: target must be a string", false⟩, w)
  | some target? =>
    let extra :=
      match pyGet args "extraArgs" with
      | .pyNone => pyGet args "extra_args"
      | v => v
    let extraOk : Option (Option (List String)) :=
      match extra with
      | .pyNone => some Option.none
      | .list xs =>
        if xs.all (fun x => (asStr x).isSome) then
          some (some (xs.filterMap asStr))
        else Option.none
      | _ => Option.none
    match extraOk with
    | Option.none => .ok (⟨"error: extraArgs must be a list of strings", false⟩, w)
    | some extra? =>
      let command_parts := ["pytest", "--cov", "--cov-report=term-missing"]
      let command_parts :=
        match target? with
        | some t =>
          if t ≠ "" ∧ pyStrip t ≠ "" then command_parts ++ [pyStrip t] else command_parts
        | Option.none => command_parts
      let command_parts :=
        match extra? with
        | some xs => if ¬ xs.isEmpty then command_parts ++ xs else command_parts
        | Option.none => command_parts
      let command_str := String.intercalate " " (command_parts.map shlexQuote)
      let timeoutOk : Option Int :=
        match pyGet args "timeout_ms" with
        | .pyNone => some 120
        | v =>
          match pyToInt v with
          | some n => some (max 1 (n / 1000))
          | Option.none => Option.none
      match timeoutOk with
      | Option.none => .ok (⟨"error: invalid timeout_ms", false⟩, w)
      | some _timeout_seconds =>
        match run_sandboxed_bash rt.execO command_str rt.default_root rt.base_root
            w.dirs 50000 with
        | (.error exc, _) => .ok (⟨s!"command rejected: {exc}", false⟩, w)
        | (.ok result, sp) =>
          let w := { w with spawned := w.spawned ++ sp }
          let formatted := format_command_result result
          let rendered :=
            "$ " ++ command_str ++ "\n\n" ++
              (if pyStrip formatted ≠ "" then formatted else "(no output)")
          .ok (⟨rendered, false⟩, w)

/-- Modelled from the spec: the todo statuses `plan_update` accepts. -/
def ALLOWED_TODO_STATUSES : List String :=
  ["pending", "in_progress", "completed"]

/-- Modelled from the spec: parse and validate the `todos` array of
`plan_update` (non-empty ids; statuses restricted to the allowed set, with
the error message shape the tests assert on). -/
def parseTodos : List PyVal → Except String (List Todo)
  | [] => .ok []
  | v :: rest =>
    match v with
    | .dict d =>
      match asStr (pyGet d "id") with
      | some id0 =>
        if id0 = "" then .error "error: todo missing id"
        else
          let status := (asStr (pyGet d "status")).getD ""
          if ¬ (status ∈ ALLOWED_TODO_STATUSES) then
            .error (s!"error: todo '{id0}' has invalid status ({status})")
          else
            (parseTodos rest).map
              (fun ts =>
                { id := id0
                  content := (asStr (pyGet d "content")).getD ""
                  status := status
                  priority := asStr (pyGet d "priority") } :: ts)
      | Option.none => .error "error: todo missing id"
    | _ => .error "error: todos must be a list of objects"

/-- Modelled from the spec: one `plan_update` merge step — a todo whose id
is already present updates that entry in place, a new id is appended. -/
def mergeStep (acc : List Todo) (u : Todo) : List Todo :=
  if acc.any (fun t => t.id = u.id) then
    acc.map (fun t => if t.id = u.id then u else t)
  else acc ++ [u]

/-- Modelled from the spec: `plan_update(replace=false)` merge — ids already
present are updated in place, new ids are appended in update order. -/
def mergeTodos (existing updates : List Todo) : List Todo :=
  updates.foldl mergeStep existing

/-- Modelled from the spec: `run_plan_update`, the handler of the
`plan_update` tool, absent from the `src/` copy of `ai_engine_tools.py` but
exercised by `tests/test_ai_engine_tools.py`.  `replace` defaults to true
(overwrite); `replace=false` merges by id.  Never mutates the filesystem. -/
def run_plan_update (args : Args) (w : World) : ToolOut × World :=
  match pyGet args "todos" with
  | .list items =>
    match parseTodos items with
    | .error msg => (⟨msg, false⟩, w)
    | .ok todos =>
      let replace := pyTruthy (pyGetD args "replace" (.bool true))
      let newTodos := if replace then todos else mergeTodos w.plan.todos todos
      let summary := asStr (pyGet args "summary")
      let n := newTodos.length
      (⟨s!"Plan updated: {n} task" ++ (if n = 1 then "" else "s"), false⟩,
       { w with plan := { w.plan with todos := newTodos, summary := summary } })
  | _ => (⟨"error: todos must be a list", false⟩, w)

/-- `handle_tool_call`: dispatch on the tool name.  The mutation-gate check
at the top is modelled from the spec (single choke point returning
`JFDI_REQUIRED_MESSAGE` with `mutated = false` for every gated tool while
`jfdi_enabled` is false); the `src/` copy of `ai_engine_tools.py` lacks it
although `ai_engine_main.py` imports `JFDI_REQUIRED_MESSAGE` and passes
`jfdi_enabled` into the runtime.  Arguments arrive already parsed
(`parse_arguments` accepts a dict unchanged). -/
def handle_tool_call (tool : String) (args : Args) (rt : ToolRuntime) (w : World) :
    Except String (ToolOut × World) :=
  if tool ∈ GATED_TOOLS ∧ ¬ rt.jfdi_enabled then
    .ok (⟨JFDI_REQUIRED_MESSAGE, false⟩, w)
  else if tool = "read_file" then read_file_tool args rt w
  else if tool = "write" ∨ tool = "write_file" then write_tool args rt w
  else if tool = "apply_patch" then apply_patch_tool args rt w
  else if tool = "shell" then handle_shell_command args rt w
  else if tool = "update_plan" then update_plan_tool args w
  else if tool = "plan_update" then .ok (run_plan_update args w)
  else if tool = "unit_test_coverage" then run_unit_test_coverage args rt w
  else if tool = "glob" then .ok (⟨rt.globO args, false⟩, w)
  else if tool = "search_content" then .ok (⟨rt.searchO args, false⟩, w)
  else .ok (⟨s!"error: unknown tool '{tool}'", false⟩, w)

/-! ### `ai_engine_main.py` — Agent Loop state

`run_conversation` is a large imperative loop; the claims about it concern
two isolated, purely state-manipulating fragments, embedded as functions on
an explicit state record: the pending-user-message append (lines 185–192)
and the cancellation block that follows a `quit`/`retry` hotkey
(lines 408–435), plus the straight-line prologue (lines 71–88). -/

/-- One transcript item (the shapes built by `_make_user_message` and
friends; payload details beyond the claims are elided to the texts/ids). -/
inductive ConvItem where
  | user (text : String)
  | assistant (text : String)
  | toolCall (call_id : String) (tool : String) (arguments : String)
  | toolResult (call_id : String) (output : String)
  | reasoning (id : String)
deriving Repr, DecidableEq

/-- The loop-local variables of `run_conversation` that the cancellation
claims touch. -/
structure ConvState where
  conversation_items : List ConvItem
  pending_user_message : Option String
  pending_user_is_repeat : Bool
  last_user_message_payload : Option String
  last_user_message_index : Option Nat
  instruction_stack : List String
  latest_instruction : String
  warned_no_write : Bool
  jfdi_enabled : Bool
  skip_model_request : Bool
deriving Repr, DecidableEq

/-- Lines 185–192 of `ai_engine_main.py`: append the pending user message,
remember its payload and index, and push the instruction stack unless the
message is a retry repeat. -/
def appendPendingUserMessage (s : ConvState) : ConvState :=
  match s.pending_user_message with
  | Option.none => s
  | some m =>
    { s with
      conversation_items := s.conversation_items ++ [.user m]
      last_user_message_payload := some m
      last_user_message_index := some s.conversation_items.length
      instruction_stack :=
        if ¬ s.pending_user_is_repeat then s.instruction_stack ++ [s.latest_instruction]
        else s.instruction_stack
      pending_user_message := Option.none
      pending_user_is_repeat := false }

/-- The hotkey cancellation actions. -/
inductive CancelAction where
  | quit
  | retry
deriving Repr, DecidableEq

/-- Lines 408–435 of `ai_engine_main.py`: on cancellation truncate the
transcript back to the last user-message index (`del items[idx:]`), then
either stage the payload for re-submission (`retry`) or clear the staged
message, pop the instruction stack, drop the unlock flag and skip the next
model request (`quit`). -/
def applyCancellation (action : CancelAction) (s : ConvState) : ConvState :=
  let s :=
    match s.last_user_message_index with
    | some idx =>
      if idx < s.conversation_items.length then
        { s with conversation_items := s.conversation_items.take idx }
      else s
    | Option.none => s
  match action with
  | .retry =>
    { s with
      pending_user_message := s.last_user_message_payload
      pending_user_is_repeat := true }
  | .quit =>
    let s :=
      if ¬ s.instruction_stack.isEmpty then
        let stack := s.instruction_stack.dropLast
        { s with
          instruction_stack := stack
          latest_instruction := stack.getLast?.getD "" }
      else s
    { s with
      pending_user_message := Option.none
      last_user_message_payload := Option.none
      last_user_message_index := Option.none
      warned_no_write := false
      jfdi_enabled := false
      skip_model_request := true }

/-- `_matches_dog_whistle`: case-insensitive comparison of the stripped text
with the configured phrase. -/
def matches_dog_whistle (dog_whistle text : String) : Bool :=
  pyLower (pyStrip text) = pyLower dog_whistle

/-- How a call to `run_conversation` leaves its prologue. -/
inductive StartOutcome where
  | emptyPrompt
  | dogWhistle
  | proceed
deriving Repr, DecidableEq

/-- Observable effects of the `run_conversation` prologue: the early exit
code if any, the unlock flag afterwards, and whether the call goes on to
collect a repository context snapshot / issue a model request. -/
structure StartResult where
  outcome : StartOutcome
  exit_code : Option Int
  jfdi_enabled : Bool
  collects_context : Bool
  issues_model_request : Bool
deriving Repr, DecidableEq

/-- Lines 71–88 of `ai_engine_main.py` (`run_conversation` prologue): the
empty-prompt early return precedes the `self.jfdi_enabled = False` reset;
a dog-whistle prompt enables the flag and returns 0 before any context
collection or model request; otherwise the call proceeds with the flag
cleared. -/
def run_conversation_start (prompt : String) (dog_whistle : String) (jfdi0 : Bool) :
    StartResult :=
  let raw_prompt := pyStrip prompt
  if raw_prompt = "" then
    { outcome := .emptyPrompt, exit_code := some 1, jfdi_enabled := jfdi0
      collects_context := false, issues_model_request := false }
  else if matches_dog_whistle dog_whistle raw_prompt then
    { outcome := .dogWhistle, exit_code := some 0, jfdi_enabled := true
      collects_context := false, issues_model_request := false }
  else
    { outcome := .proceed, exit_code := Option.none, jfdi_enabled := false
      collects_context := true, issues_model_request := true }

/-! ### `conversation_store.py` -/

/-- Store configuration: `enabled`, the per-workspace file path (absent when
persistence is disabled or no base directory could be created), and the
resolved workspace path the store keys on. -/
structure StoreState where
  enabled : Bool
  file_path : Option PPath
  workspace : PPath
deriving Repr, DecidableEq

/-- What reading and JSON-parsing the persisted file produced. -/
inductive ReadOutcome where
  | missing
  | ioError
  | parseError
  | parsed (data : PyVal)
deriving Repr

/-- `Path(p).resolve()` for a persisted path string (the store always writes
absolute paths). -/
def resolveStored (p : String) : PPath :=
  normComps (parseRawPath p).comps

/-- `ConversationStore.load`: `([], None)` on any I/O or JSON failure, on a
non-dict payload, on a persisted-path mismatch and on a non-list `items`;
`.error` models the uncaught `TypeError` of `Path(v)` on a truthy non-string
path value. -/
def ConversationStore_load (st : StoreState) (disk : ReadOutcome) :
    Except String (List PyVal × Option String) :=
  if ¬ st.enabled ∨ st.file_path = Option.none then .ok ([], Option.none)
  else
    match disk with
    | .missing => .ok ([], Option.none)
    | .ioError => .ok ([], Option.none)
    | .parseError => .ok ([], Option.none)
    | .parsed data =>
      match data with
      | .dict d =>
        let pathv := pyGet d "path"
        let checkPath : Except String Bool :=
          if pyTruthy pathv then
            match asStr pathv with
            | some p => .ok (resolveStored p ≠ st.workspace)
            | Option.none => .error "TypeError: argument should be a str"
          else .ok false
        match checkPath with
        | .error e => .error e
        | .ok true => .ok ([], Option.none)
        | .ok false =>
          match pyGetD d "items" (.list []) with
          | .list items =>
            let plan :=
              match pyGet d "plan" with
              | .str s => some s
              | _ => Option.none
            .ok (items, plan)
          | _ => .ok ([], Option.none)
      | _ => .ok ([], Option.none)

/-- `Path.with_suffix(".tmp")` on a file name. -/
def withSuffixTmp (name : String) : String :=
  let parts := pySplitOnChar '.' name
  if parts.length ≤ 1 then name ++ ".tmp"
  else String.intercalate "." parts.dropLast ++ ".tmp"

/-- The temporary path `file_path.with_suffix(".tmp")`. -/
def tmpPathOf (fp : PPath) : PPath :=
  fp.dropLast ++ [withSuffixTmp (fp.getLast?.getD "")]

/-- Write a payload into the persisted-file model. -/
def storeWrite (fs : List (PPath × PyVal)) (p : PPath) (v : PyVal) :
    List (PPath × PyVal) :=
  (p, v) :: fs.filter (fun e => e.1 ≠ p)

/-- `tmp.replace(target)`: atomically rename `tmp` over `target`. -/
def storeRename (fs : List (PPath × PyVal)) (tmp target : PPath) :
    List (PPath × PyVal) :=
  match fs.lookup tmp with
  | some v => storeWrite (fs.filter (fun e => e.1 ≠ tmp)) target v
  | Option.none => fs

/-- `ConversationStore.save`: no write at all when persistence is disabled;
otherwise write the payload to `<target>.tmp` and rename it over the target.
`writeOk = false` models an `OSError` during the write/rename, after which
the temporary file is cleaned up and the target is untouched. -/
def ConversationStore_save (st : StoreState) (payload : PyVal)
    (fs : List (PPath × PyVal)) (writeOk : Bool) : List (PPath × PyVal) :=
  if ¬ st.enabled then fs
  else
    match st.file_path with
    | Option.none => fs
    | some fp =>
      if writeOk then
        let tmp := tmpPathOf fp
        storeRename (storeWrite fs tmp payload) tmp fp
      else fs

/-! ### Concrete fixtures

A small project-rooted runtime and world used to instantiate theorems on
concrete inputs. -/

/-- A concrete runtime rooted at `/proj` with trivial oracles and the unlock
flag enabled. -/
def demoRuntime : ToolRuntime :=
  { base_root := ["proj"]
    default_root := ["proj"]
    latest_instruction := "write hello.txt"
    jfdi_enabled := true
    review := fun _ _ _ _ _ => "applied"
    promptConfirm := true
    patchExec := fun _ => Option.none
    execO := fun _ => .completed 0 "" ""
    globO := fun _ => ""
    searchO := fun _ => ""
    envBashMaxSeconds := Option.none
    envBashMaxOutput := Option.none }

/-- `demoRuntime` with the unlock flag down. -/
def demoRuntimeLocked : ToolRuntime :=
  { demoRuntime with jfdi_enabled := false }

/-- A concrete world: one file under `/proj`, `/proj` exists as a directory,
nothing read or spawned yet. -/
def demoWorld : World :=
  { fs := [(["proj", "hello.txt"], "old\n")]
    dirs := [["proj"]]
    reads := []
    spawned := []
    plan := { plan := Option.none, todos := [], summary := Option.none } }

/-- A concrete mid-conversation loop state: one completed exchange, a second
user message staged. -/
def demoConvState : ConvState :=
  { conversation_items := [.user "hi", .assistant "hello"]
    pending_user_message := some "next question"
    pending_user_is_repeat := false
    last_user_message_payload := some "hi"
    last_user_message_index := some 0
    instruction_stack := ["hi"]
    latest_instruction := "next question"
    warned_no_write := false
    jfdi_enabled := true
    skip_model_request := false }

/-- Scenario (F) of the spec: plan state with todos `a` and `b`. -/
def demoPlanWorld : World :=
  { demoWorld with
    plan := { plan := Option.none
              todos := [{ id := "a", content := "A", status := "pending", priority := Option.none },
                        { id := "b", content := "B", status := "pending", priority := Option.none }]
              summary := Option.none } }

/-- Scenario (F): the todo dictionaries supplied to `plan_update`. -/
def demoPlanItems : List PyVal :=
  [.dict [("id", .str "b"), ("content", .str "B2"), ("status", .str "in_progress")],
   .dict [("id", .str "c"), ("content", .str "C"), ("status", .str "pending")]]

/-- Scenario (F): the parsed update todos. -/
def demoPlanU : List Todo :=
  [{ id := "b", content := "B2", status := "in_progress", priority := Option.none },
   { id := "c", content := "C", status := "pending", priority := Option.none }]

/-- Scenario (F): the full `plan_update` argument dict with `replace:false`. -/
def demoPlanArgs : Args :=
  [("todos", .list demoPlanItems), ("replace", .bool false)]

/-- A concrete enabled store keyed on workspace `/proj`. -/
def demoStore : StoreState :=
  { enabled := true
    file_path := some ["home", "state", "abc.json"]
    workspace := ["proj"] }

/-- `true` when a value is a Python list. -/
def PyVal.isList : PyVal → Bool
  | .list _ => true
  | _ => false

/-- `true` when a tool result has the `error: ... outside project root`
shape the spec describes. -/
def isOutsideRootError (s : String) : Bool :=
  pyStartsWith s "error:" && containsSubstr s "outside project root"

/-- A rejected sandbox invocation (`CommandRejected` raised). -/
def isRejected (r : Except String CommandResult × List String) : Bool :=
  match r.1 with
  | .error _ => true
  | .ok _ => false

/-- Decidable equality for `Except` results. -/
instance exceptDecEq {ε α : Type} [DecidableEq ε] [DecidableEq α] :
    DecidableEq (Except ε α)
  | .ok a, .ok b =>
    if h : a = b then .isTrue (by rw [h]) else .isFalse (by intro hh; cases hh; exact h rfl)
  | .ok _, .error _ => .isFalse (by intro hh; cases hh)
  | .error _, .ok _ => .isFalse (by intro hh; cases hh)
  | .error e, .error f =>
    if h : e = f then .isTrue (by rw [h]) else .isFalse (by intro hh; cases hh; exact h rfl)

/-! ## Theorems -/

/-- C1: while `jfdi_enabled` is false, `handle_tool_call` on any gated tool
(`write`, `write_file`, `apply_patch`, `shell`, `unit_test_coverage`)
returns exactly `(JFDI_REQUIRED_MESSAGE, false)` and leaves the world — the
filesystem, the spawned-process list, everything — untouched. -/
theorem gated_tool_blocked_without_jfdi (tool : String) (args : Args)
    (rt : ToolRuntime) (w : World) (hg : tool ∈ GATED_TOOLS)
    (hj : rt.jfdi_enabled = false) :
    handle_tool_call tool args rt w = .ok (⟨JFDI_REQUIRED_MESSAGE, false⟩, w) := by
  unfold handle_tool_call
  rw [if_pos ⟨hg, by simp [hj]⟩]

/-- C1 witness: the `write` tool at a locked runtime returns the gate
message and changes nothing. -/
theorem gated_tool_blocked_without_jfdi_witness :
    handle_tool_call "write"
        [("filePath", .str "hello.txt"), ("content", .str "hi\n")]
        demoRuntimeLocked demoWorld =
      .ok (⟨JFDI_REQUIRED_MESSAGE, false⟩, demoWorld) :=
  gated_tool_blocked_without_jfdi "write" _ demoRuntimeLocked demoWorld
    (by decide) rfl

/-- C4: `run_sandboxed_bash` rejects (raises `CommandRejected`, spawning
nothing) exactly when the trimmed command is empty, the lowercased command
contains a forbidden substring, some shell-split token starts with `/` or
`..` or contains `.git`, or the working directory is missing or not
`scope_root`/a descendant of it; moreover a command only ever reaches
`bash -lc` with its working directory inside `scope_root`. -/
theorem run_sandboxed_bash_reject_iff (execO : String → ExecOutcome)
    (command : String) (cwd scopeRoot : List String) (dirs : List PPath)
    (maxOutputBytes : Nat) :
    (isRejected (run_sandboxed_bash execO command cwd scopeRoot dirs maxOutputBytes) = true ↔
      (pyStrip command = "" ∨
       DISALLOWED_SUBSTRINGS.any
         (fun marker => containsSubstr (pyLower (pyStrip command)) marker) = true ∨
       (tokenize (pyStrip command)).any
         (fun token => looksLikePath token || referencesGit token) = true ∨
       ¬ (normComps cwd ∈ dirs ∧ isDescendant (normComps scopeRoot) (normComps cwd) = true))) ∧
    (isRejected (run_sandboxed_bash execO command cwd scopeRoot dirs maxOutputBytes) = true →
      (run_sandboxed_bash execO command cwd scopeRoot dirs maxOutputBytes).2 = []) ∧
    ((run_sandboxed_bash execO command cwd scopeRoot dirs maxOutputBytes).2 ≠ [] →
      isDescendant (normComps scopeRoot) (normComps cwd) = true) := by
  unfold run_sandboxed_bash
  by_cases hempty : pyStrip command = ""
  · simp [hempty, isRejected]
  · rw [if_neg hempty]
    by_cases hdir : normComps cwd ∈ dirs
    · rw [if_neg (by simpa using hdir)]
      by_cases hdesc : isDescendant (normComps scopeRoot) (normComps cwd) = true
      · rw [if_neg (by simpa using hdesc)]
        unfold validate_command
        by_cases hforb : DISALLOWED_SUBSTRINGS.any
            (fun marker => containsSubstr (pyLower (pyStrip command)) marker) = true
        · simp [hforb, hempty, isRejected]
        · rw [if_neg (by simpa using hforb)]
          by_cases htok : (tokenize (pyStrip command)).any
              (fun token => looksLikePath token || referencesGit token) = true
          · by_cases hpath : (tokenize (pyStrip command)).any looksLikePath = true
            · simp [hpath, htok, isRejected, hempty, hforb, hdir, hdesc]
            · rw [if_neg hpath]
              have hgit : (tokenize (pyStrip command)).any referencesGit = true := by
                rcases List.any_eq_true.mp htok with ⟨t, ht, hor⟩
                rcases Bool.or_eq_true _ _ |>.mp hor with h | h
                · exact absurd (List.any_eq_true.mpr ⟨t, ht, h⟩) hpath
                · exact List.any_eq_true.mpr ⟨t, ht, h⟩
              simp [hgit, htok, isRejected, hempty, hforb, hdir, hdesc]
          · have hpath : ¬ (tokenize (pyStrip command)).any looksLikePath = true := by
              intro h
              rcases List.any_eq_true.mp h with ⟨t, ht, hl⟩
              exact htok (List.any_eq_true.mpr ⟨t, ht, by simp [hl]⟩)
            have hgit : ¬ (tokenize (pyStrip command)).any referencesGit = true := by
              intro h
              rcases List.any_eq_true.mp h with ⟨t, ht, hl⟩
              exact htok (List.any_eq_true.mpr ⟨t, ht, by simp [hl]⟩)
            rw [if_neg hpath, if_neg hgit]
            cases hexec : execO (pyStrip command) with
            | timedOut so se =>
              simp [isRejected, hempty, hforb, htok, hdir, hdesc]
            | completed rc out err =>
              simp [isRejected, hempty, hforb, htok, hdir, hdesc]
      · simp [isRejected, hdesc, if_pos]
    · simp [isRejected, hdir, if_pos]

/-- C4 witness: `sudo rm -rf` (forbidden substring) is rejected. -/
theorem run_sandboxed_bash_reject_iff_witness :
    isRejected (run_sandboxed_bash (fun _ => .completed 0 "" "") "sudo rm -rf"
      ["proj"] ["proj"] [["proj"]] 100) = true :=
  (run_sandboxed_bash_reject_iff (fun _ => .completed 0 "" "") "sudo rm -rf"
      ["proj"] ["proj"] [["proj"]] 100).1.mpr (Or.inr (Or.inl (by decide)))

/-- C7: when the subprocess hits the wall-clock timeout,
`run_sandboxed_bash` returns (rather than raises) a `CommandResult` with
`exit_code = 124`, the captured partial output, and the captured stderr with
`"\nCommand timed out"` appended. -/
theorem shell_timeout_returns_124 (execO : String → ExecOutcome)
    (command : String) (cwd scopeRoot : List String) (dirs : List PPath)
    (maxOutputBytes : Nat) (so se : Option String)
    (hempty : pyStrip command ≠ "")
    (hdir : normComps cwd ∈ dirs)
    (hdesc : isDescendant (normComps scopeRoot) (normComps cwd) = true)
    (hval : validate_command (pyStrip command) = .ok ())
    (hexec : execO (pyStrip command) = .timedOut so se) :
    run_sandboxed_bash execO command cwd scopeRoot dirs maxOutputBytes =
      (.ok { command := pyStrip command
             exit_code := 124
             stdout := so.getD ""
             stderr := se.getD "" ++ "\nCommand timed out"
             truncated := false },
       [pyStrip command]) := by
  unfold run_sandboxed_bash
  rw [if_neg hempty, if_neg (by simpa using hdir), if_neg (by simpa using hdesc),
    hval, hexec]

/-- C7 witness: `sleep 60` timing out yields exit code 124 and the appended
stderr marker. -/
theorem shell_timeout_returns_124_witness :
    run_sandboxed_bash (fun _ => .timedOut (some "partial out") (some "partial err"))
        "sleep 60" ["proj"] ["proj"] [["proj"]] 20000 =
      (.ok { command := "sleep 60"
             exit_code := 124
             stdout := "partial out"
             stderr := "partial err\nCommand timed out"
             truncated := false },
       ["sleep 60"]) := by
  have h := shell_timeout_returns_124
    (fun _ => .timedOut (some "partial out") (some "partial err"))
    "sleep 60" ["proj"] ["proj"] [["proj"]] 20000
    (some "partial out") (some "partial err")
    (by decide) (by decide) (by decide) (by rfl) (by rfl)
  simpa using h

/-- Every result `handle_shell_command` hands back carries
`mutated = false`, whether the command ran or was rejected. -/
theorem handle_shell_command_mutated_false (args : Args) (rt : ToolRuntime)
    (w : World) (out : ToolOut) (w' : World)
    (h : handle_shell_command args rt w = .ok (out, w')) :
    out.mutated = false := by
  unfold handle_shell_command at h
  cases hcmd : pyGet args "command" <;> rw [hcmd] at h <;> simp only [] at h
  all_goals try (cases h; rfl)
  all_goals split at h
  all_goals try (cases h; rfl)
  all_goals try (cases h)
  all_goals split at h
  all_goals try (cases h; rfl)
  all_goals split at h
  all_goals try (cases h; rfl)

/-- C10: dispatched through `handle_tool_call`, the `shell` tool always
returns `mutated = false`: when the command runs, when it is rejected, and
when the unlock gate intercepts it, so a shell invocation never triggers the
context recomputation a true flag would signal. -/
theorem shell_tool_never_mutates (args : Args) (rt : ToolRuntime) (w : World)
    (out : ToolOut) (w' : World)
    (h : handle_tool_call "shell" args rt w = .ok (out, w')) :
    out.mutated = false := by
  unfold handle_tool_call at h
  by_cases hj : rt.jfdi_enabled
  · simp +decide [hj] at h
    exact handle_shell_command_mutated_false args rt w out w' h
  · simp +decide [hj] at h
    obtain ⟨rfl, -⟩ := h
    rfl

/-- C10 witness: a concrete `ls` invocation returns `mutated = false`. -/
theorem shell_tool_never_mutates_witness :
    ∃ out w', handle_tool_call "shell" [("command", .str "ls")] demoRuntime demoWorld =
        .ok (out, w') ∧ out.mutated = false := by
  refine ⟨⟨"$ ls\n\n(no output)", false⟩, { demoWorld with spawned := ["ls"] },
    by decide, ?_⟩
  exact shell_tool_never_mutates [("command", .str "ls")] demoRuntime demoWorld
    ⟨"$ ls\n\n(no output)", false⟩ { demoWorld with spawned := ["ls"] } (by decide)

/-- C2 counterexample: a `write` whose path resolves outside the project
root returns `skipped_out_of_scope`, not a string of the form
`error: ... outside project root` — refuting the claim as stated for the
write/write_file path. -/
theorem path_outside_root_write_counterexample :
    isDescendant ["proj"] (resolvePathArg ["proj"] (parseRawPath "../etc/passwd")) = false ∧
    (apply_file_update "../etc/passwd" "hi" demoRuntime true demoWorld).1 =
      "skipped_out_of_scope" ∧
    isOutsideRootError
      (apply_file_update "../etc/passwd" "hi" demoRuntime true demoWorld).1 = false := by
  decide

/-- C2 (amended): for a path argument resolving outside `base_root`,
`read_file` returns the `error: path outside project root (...)` string and
the write/write_file path (`apply_file_update`) returns
`skipped_out_of_scope`; in both cases the world — filesystem, reads,
spawned processes — is untouched. -/
theorem path_scope_enforced (rt : ToolRuntime) (w : World) (args : Args)
    (pstr : String) (hne : pstr ≠ "")
    (hpath : pyGet args "path" = .str pstr)
    (hout : isDescendant rt.base_root
      (resolvePathArg rt.default_root (parseRawPath pstr)) = false) :
    read_file_tool args rt w =
      .ok (⟨s!"error: path outside project root ({pathToString (resolvePathArg rt.default_root (parseRawPath pstr))})",
            false⟩, w) ∧
    (∀ content auto_apply, apply_file_update pstr content rt auto_apply w =
      ("skipped_out_of_scope", w)) := by
  constructor
  · unfold read_file_tool
    rw [hpath]
    simp [pyTruthy, hne, asStr, hout]
  · intro content auto_apply
    simp [apply_file_update, hout]

/-- C2 witness: `read_file {path: "../etc/passwd"}` under root `/proj`. -/
theorem path_scope_enforced_witness :
    read_file_tool [("path", .str "../etc/passwd")] demoRuntime demoWorld =
      .ok (⟨"error: path outside project root (/etc/passwd)", false⟩, demoWorld) := by
  have h := (path_scope_enforced demoRuntime demoWorld
    [("path", .str "../etc/passwd")] "../etc/passwd"
    (by decide) (by rfl) (by decide)).1
  simpa using h

/-- C3: after a `quit` or `retry` cancellation, however many items the
cancelled turn had appended after the staged user message, the transcript
length returns to its length immediately before that user-message append;
`quit` additionally clears `jfdi_enabled`, and `retry` re-stages the
cancelled payload as the pending user message. -/
theorem cancellation_restores_transcript (s0 : ConvState) (m : String)
    (extra : List ConvItem) (hp : s0.pending_user_message = some m) :
    ((applyCancellation .quit
        { appendPendingUserMessage s0 with
          conversation_items :=
            (appendPendingUserMessage s0).conversation_items ++ extra }).conversation_items.length =
        s0.conversation_items.length ∧
      (applyCancellation .quit
        { appendPendingUserMessage s0 with
          conversation_items :=
            (appendPendingUserMessage s0).conversation_items ++ extra }).jfdi_enabled = false) ∧
    ((applyCancellation .retry
        { appendPendingUserMessage s0 with
          conversation_items :=
            (appendPendingUserMessage s0).conversation_items ++ extra }).conversation_items.length =
        s0.conversation_items.length ∧
      (applyCancellation .retry
        { appendPendingUserMessage s0 with
          conversation_items :=
            (appendPendingUserMessage s0).conversation_items ++ extra }).pending_user_message =
        some m) := by
  have hs1 : appendPendingUserMessage s0 =
      { s0 with
        conversation_items := s0.conversation_items ++ [.user m]
        last_user_message_payload := some m
        last_user_message_index := some s0.conversation_items.length
        instruction_stack :=
          if ¬ s0.pending_user_is_repeat then s0.instruction_stack ++ [s0.latest_instruction]
          else s0.instruction_stack
        pending_user_message := Option.none
        pending_user_is_repeat := false } := by
    unfold appendPendingUserMessage
    rw [hp]
  rw [hs1]
  have hcond : s0.conversation_items.length <
      ((s0.conversation_items ++ [ConvItem.user m]) ++ extra).length := by
    simp
  unfold applyCancellation
  simp only [if_pos hcond]
  refine ⟨⟨?_, ?_⟩, ?_, ?_⟩
  all_goals try trivial
  all_goals try (split <;> split <;> simp)
  all_goals try simp


/-- C3 witness: cancelling after the staged message of `demoConvState` was
appended and a tool exchange followed restores length 2. -/
theorem cancellation_restores_transcript_witness :
    (applyCancellation .quit
        { appendPendingUserMessage demoConvState with
          conversation_items :=
            (appendPendingUserMessage demoConvState).conversation_items ++
              [.toolCall "c1" "shell" "\x7b\x7d", .toolResult "c1" "ok"] }).conversation_items.length = 2 ∧
    (applyCancellation .retry
        { appendPendingUserMessage demoConvState with
          conversation_items :=
            (appendPendingUserMessage demoConvState).conversation_items ++
              [.toolCall "c1" "shell" "\x7b\x7d", .toolResult "c1" "ok"] }).pending_user_message =
      some "next question" := by
  have h := cancellation_restores_transcript demoConvState "next question"
    [.toolCall "c1" "shell" "\x7b\x7d", .toolResult "c1" "ok"] (by rfl)
  exact ⟨h.1.1, h.2.2⟩

/-- C9 counterexample: a call with an (all-whitespace) empty prompt returns
before the `jfdi_enabled = False` reset, so the unlock flag survives the
call — refuting "reset at the start of every call". -/
theorem jfdi_reset_counterexample :
    (run_conversation_start "" "jfdi" true).jfdi_enabled = true ∧
    (run_conversation_start "" "jfdi" true).exit_code = some 1 := by
  decide

/-- C9 (amended): a call with a non-empty trimmed prompt first resets the
unlock flag; if the trimmed prompt matches the dog whistle
case-insensitively the call enables the flag and returns 0 with no context
collection and no model request; otherwise it proceeds with the flag
cleared.  A call with an empty trimmed prompt returns 1 before the reset,
leaving the flag unchanged. -/
theorem run_conversation_start_spec (prompt dw : String) (jfdi0 : Bool) :
    (pyStrip prompt = "" →
      run_conversation_start prompt dw jfdi0 =
        { outcome := .emptyPrompt, exit_code := some 1, jfdi_enabled := jfdi0
          collects_context := false, issues_model_request := false }) ∧
    (pyStrip prompt ≠ "" → matches_dog_whistle dw (pyStrip prompt) = true →
      run_conversation_start prompt dw jfdi0 =
        { outcome := .dogWhistle, exit_code := some 0, jfdi_enabled := true
          collects_context := false, issues_model_request := false }) ∧
    (pyStrip prompt ≠ "" → matches_dog_whistle dw (pyStrip prompt) = false →
      run_conversation_start prompt dw jfdi0 =
        { outcome := .proceed, exit_code := Option.none, jfdi_enabled := false
          collects_context := true, issues_model_request := true }) := by
  refine ⟨fun h => by simp [run_conversation_start, h],
          fun h1 h2 => by simp [run_conversation_start, h1, h2],
          fun h1 h2 => by simp [run_conversation_start, h1, h2]⟩

/-- C9 witness: the dog whistle (up to case and surrounding blanks) enables
the flag and short-circuits with exit code 0. -/
theorem run_conversation_start_spec_witness :
    run_conversation_start " JFDI " "jfdi" false =
      { outcome := .dogWhistle, exit_code := some 0, jfdi_enabled := true
        collects_context := false, issues_model_request := false } :=
  (run_conversation_start_spec " JFDI " "jfdi" false).2.1 (by decide) (by decide)

/-- Updating by an id already present keeps the id sequence unchanged. -/
theorem mergeStep_ids_mem (S : List Todo) (u : Todo) (h : u.id ∈ S.map Todo.id) :
    (mergeStep S u).map Todo.id = S.map Todo.id := by
  unfold mergeStep
  rw [if_pos]
  · rw [List.map_map]
    apply List.map_congr_left
    intro t _
    by_cases ht : t.id = u.id <;> simp [Function.comp, ht]
  · rcases List.mem_map.mp h with ⟨t, htS, hid⟩
    exact List.any_eq_true.mpr ⟨t, htS, by simp [hid]⟩

/-- A fresh id is appended at the end of the id sequence. -/
theorem mergeStep_ids_not_mem (S : List Todo) (u : Todo)
    (h : u.id ∉ S.map Todo.id) :
    (mergeStep S u).map Todo.id = S.map Todo.id ++ [u.id] := by
  unfold mergeStep
  rw [if_neg]
  · simp
  · intro hany
    rcases List.any_eq_true.mp hany with ⟨t, htS, hid⟩
    exact h (List.mem_map.mpr ⟨t, htS, by simpa using hid⟩)

/-- The id sequence after a merge: prior ids first, then the new ids of the
update list in order. -/
theorem mergeTodos_ids (U : List Todo) :
    ∀ S : List Todo, (U.map Todo.id).Nodup →
      (mergeTodos S U).map Todo.id =
        S.map Todo.id ++ (U.map Todo.id).filter (fun i => i ∉ S.map Todo.id) := by
  induction U with
  | nil => intro S _; simp [mergeTodos]
  | cons u U ih =>
    intro S hU
    rw [List.map_cons, List.nodup_cons] at hU
    have hstep : mergeTodos S (u :: U) = mergeTodos (mergeStep S u) U := rfl
    rw [hstep]
    by_cases hm : u.id ∈ S.map Todo.id
    · simp only [ih _ hU.2, mergeStep_ids_mem S u hm]
      have hm2 : ¬ (∀ x ∈ S, ¬ x.id = u.id) := by
        rcases List.mem_map.mp hm with ⟨t, ht, hid⟩
        intro hall
        exact hall t ht hid
      simp [List.filter_cons, hm, hm2]
    · simp only [ih _ hU.2, mergeStep_ids_not_mem S u hm]
      have hfil : (U.map Todo.id).filter
            (fun i => i ∉ S.map Todo.id ++ [u.id]) =
          (U.map Todo.id).filter (fun i => i ∉ S.map Todo.id) := by
        apply List.filter_congr
        intro i hi
        have hne : i ≠ u.id := fun hh => hU.1 (hh ▸ hi)
        simp [hne]
      rw [hfil]
      have hm2 : ∀ x ∈ S, ¬ x.id = u.id := by
        intro x hx hxx
        exact hm (List.mem_map.mpr ⟨x, hx, hxx⟩)
      simp [List.filter_cons, hm]
      exact (if_pos hm2).symm

/-- Replacing the entry of a different id leaves `find?` on `i` unchanged. -/
theorem find?_map_replace (w : Todo) (i : String) (hne : w.id ≠ i) :
    ∀ S : List Todo,
      (S.map (fun t => if t.id = w.id then w else t)).find?
          (fun t => t.id = i) =
        S.find? (fun t => t.id = i) := by
  intro S
  induction S with
  | nil => rfl
  | cons t ts ih =>
    by_cases ht : t.id = w.id
    · have hwi : (decide (w.id = i)) = false := by simp [hne]
      have hti : (decide (t.id = i)) = false := by simp [ht, hne]
      simp only [List.map_cons, List.find?_cons, if_pos ht, hwi, hti]
      exact ih
    · simp only [List.map_cons, List.find?_cons, if_neg ht]
      cases hdec : decide (t.id = i) <;> simp [hdec, ih]

/-- A merge step for a different id leaves `find?` on `i` unchanged. -/
theorem find?_mergeStep_other (S : List Todo) (w : Todo) (i : String)
    (hne : w.id ≠ i) :
    (mergeStep S w).find? (fun t => t.id = i) = S.find? (fun t => t.id = i) := by
  unfold mergeStep
  split
  · exact find?_map_replace w i hne S
  · rw [List.find?_append]
    have : ([w].find? (fun t => t.id = i)) = Option.none := by
      simp [List.find?_cons, hne]
    rw [this]
    cases S.find? (fun t => t.id = i) <;> rfl

/-- Replacing the entries matching `v.id` makes `find?` on `v.id` return
`v`, provided the id occurs. -/
theorem find?_map_replace_self (v : Todo) :
    ∀ S : List Todo, v.id ∈ S.map Todo.id →
      (S.map (fun t => if t.id = v.id then v else t)).find?
        (fun t => t.id = v.id) = some v := by
  intro S
  induction S with
  | nil => intro h; cases h
  | cons t ts ih =>
    intro hmem
    by_cases ht : t.id = v.id
    · simp [List.find?_cons, if_pos ht]
    · simp only [List.map_cons, List.find?_cons, if_neg ht]
      have hd : (decide (t.id = v.id)) = false := by simp [ht]
      simp only [hd]
      apply ih
      rcases List.mem_cons.mp hmem with h | h
      · exact absurd h.symm ht
      · exact h

/-- After a merge step for `v`, looking up `v.id` finds exactly `v`. -/
theorem find?_mergeStep_self (S : List Todo) (v : Todo) :
    (mergeStep S v).find? (fun t => t.id = v.id) = some v := by
  unfold mergeStep
  split
  next hany =>
    rcases List.any_eq_true.mp hany with ⟨t0, ht0, hid0⟩
    exact find?_map_replace_self v S (List.mem_map.mpr ⟨t0, ht0, by simpa using hid0⟩)
  next hany =>
    rw [List.find?_append]
    have hnone : S.find? (fun t => t.id = v.id) = Option.none := by
      apply List.find?_eq_none.mpr
      intro x hx hxx
      exact hany (List.any_eq_true.mpr ⟨x, hx, hxx⟩)
    rw [hnone]
    simp [List.find?_cons]

/-- Merging todos none of which carry id `i` leaves `find?` on `i`
unchanged. -/
theorem find?_mergeTodos_other (U : List Todo) (i : String) :
    ∀ S, (∀ x ∈ U, x.id ≠ i) →
      (mergeTodos S U).find? (fun t => t.id = i) =
        S.find? (fun t => t.id = i) := by
  induction U with
  | nil => intro S _; rfl
  | cons w W ih =>
    intro S h
    have hstep : mergeTodos S (w :: W) = mergeTodos (mergeStep S w) W := rfl
    rw [hstep, ih _ (fun x hx => h x (List.mem_cons_of_mem _ hx)),
      find?_mergeStep_other S w i (h w (List.mem_cons_self _ _))]

/-- After a merge with nodup update ids, every update todo is found intact
under its id. -/
theorem find?_mergeTodos (U : List Todo) :
    ∀ S, (U.map Todo.id).Nodup → ∀ u ∈ U,
      (mergeTodos S U).find? (fun t => t.id = u.id) = some u := by
  induction U with
  | nil => intro S _ u hu; cases hu
  | cons v W ih =>
    intro S hU u hu
    rw [List.map_cons, List.nodup_cons] at hU
    have hstep : mergeTodos S (v :: W) = mergeTodos (mergeStep S v) W := rfl
    rcases List.mem_cons.mp hu with rfl | huW
    · rw [hstep, find?_mergeTodos_other W u.id _ ?hother]
      · exact find?_mergeStep_self S u
      case hother =>
        intro x hx hxid
        exact hU.1 (hxid ▸ List.mem_map_of_mem Todo.id hx)
    · rw [hstep]
      exact ih _ hU.2 u huW

/-- Todos accepted by `parseTodos` all carry an allowed status. -/
theorem parseTodos_status (items : List PyVal) :
    ∀ U, parseTodos items = .ok U →
      ∀ u ∈ U, u.status ∈ ALLOWED_TODO_STATUSES := by
  induction items with
  | nil =>
    intro U h u hu
    cases h
    cases hu
  | cons v rest ih =>
    intro U h u hu
    unfold parseTodos at h
    cases v <;> try (cases h)
    next d =>
      simp only [] at h
      cases hid : asStr (pyGet d "id") <;> rw [hid] at h
      case none => cases h
      case some id0 =>
        simp only [] at h
        split at h
        · cases h
        · split at h
          · cases h
          next hst =>
            cases hrest : parseTodos rest <;> rw [hrest] at h
            case error => cases h
            case ok ts =>
              simp only [Except.map] at h
              cases h
              rcases List.mem_cons.mp hu with rfl | huts
              · simpa using hst
              · exact ih ts hrest u huts

/-- C6: `plan_update` with `replace=false` merges the supplied todos into
the plan state by id: the resulting id sequence is the prior ids followed by
the new ids of the update in order; every id present in the update stores
the update's content and status; every accepted status is from the allowed
set; and the call reports `mutated = false`. -/
theorem plan_update_merges_by_id (w : World) (args : Args) (items : List PyVal)
    (U : List Todo)
    (htodos : pyGet args "todos" = .list items)
    (hreplace : pyTruthy (pyGetD args "replace" (.bool true)) = false)
    (hparse : parseTodos items = .ok U)
    (hU : (U.map Todo.id).Nodup) :
    (run_plan_update args w).1.mutated = false ∧
    (run_plan_update args w).2.plan.todos = mergeTodos w.plan.todos U ∧
    (mergeTodos w.plan.todos U).map Todo.id =
      w.plan.todos.map Todo.id ++
        (U.map Todo.id).filter (fun i => i ∉ w.plan.todos.map Todo.id) ∧
    (∀ u ∈ U, (mergeTodos w.plan.todos U).find? (fun t => t.id = u.id) = some u) ∧
    (∀ u ∈ U, u.status ∈ ALLOWED_TODO_STATUSES) := by
  have hrun : run_plan_update args w =
      (⟨s!"Plan updated: {(mergeTodos w.plan.todos U).length} task" ++
          (if (mergeTodos w.plan.todos U).length = 1 then "" else "s"), false⟩,
       { w with plan := { w.plan with
           todos := mergeTodos w.plan.todos U
           summary := asStr (pyGet args "summary") } }) := by
    unfold run_plan_update
    rw [htodos]
    simp only [hparse, hreplace, Bool.false_eq_true, if_false]
  refine ⟨by rw [hrun], by rw [hrun],
    mergeTodos_ids U w.plan.todos hU,
    find?_mergeTodos U w.plan.todos hU,
    parseTodos_status items U hparse⟩

/-- C6 witness: scenario (F) of the spec — merging `b2`/`c` into `a`,`b`
yields `a/pending`, `b/in_progress/B2`, `c/pending` with
`mutated = false`. -/
theorem plan_update_merges_by_id_witness :
    (run_plan_update demoPlanArgs demoPlanWorld).1.mutated = false ∧
    (run_plan_update demoPlanArgs demoPlanWorld).2.plan.todos =
      [{ id := "a", content := "A", status := "pending", priority := Option.none },
       { id := "b", content := "B2", status := "in_progress", priority := Option.none },
       { id := "c", content := "C", status := "pending", priority := Option.none }] := by
  have h := plan_update_merges_by_id demoPlanWorld demoPlanArgs demoPlanItems
    demoPlanU (by rfl) (by rfl) (by rfl) (by decide)
  exact ⟨h.1, by rw [h.2.1]; decide⟩

/-- A lookup misses when no entry carries the key. -/
theorem lookup_eq_none_of_all_ne (p : PPath) :
    ∀ l : List (PPath × PyVal), (∀ e ∈ l, e.1 ≠ p) → l.lookup p = Option.none := by
  intro l h
  induction l with
  | nil => rfl
  | cons e t ih =>
    have hne : (p == e.1) = false := by
      simp only [beq_eq_false_iff_ne]
      exact fun hh => (h e (List.mem_cons_self _ _)) hh.symm
    simp only [List.lookup, hne]
    exact ih (fun x hx => h x (List.mem_cons_of_mem _ hx))

/-- C8: `ConversationStore.load` returns `([], None)` on I/O errors, JSON
parse failures, missing files, non-dict payloads, persisted-path mismatches
and non-list `items`; `ConversationStore.save` writes nothing when
persistence is disabled or the write fails, and otherwise lands the payload
at the target with the temporary file gone (write-to-temp, atomic
rename). -/
theorem conversation_store_contract (st : StoreState) :
    (ConversationStore_load st .ioError = .ok ([], Option.none)) ∧
    (ConversationStore_load st .parseError = .ok ([], Option.none)) ∧
    (ConversationStore_load st .missing = .ok ([], Option.none)) ∧
    (∀ xs, ConversationStore_load st (.parsed (.list xs)) = .ok ([], Option.none)) ∧
    (∀ s, ConversationStore_load st (.parsed (.str s)) = .ok ([], Option.none)) ∧
    (∀ d p, pyGet d "path" = .str p → p ≠ "" → resolveStored p ≠ st.workspace →
      ConversationStore_load st (.parsed (.dict d)) = .ok ([], Option.none)) ∧
    (∀ d, pyTruthy (pyGet d "path") = false →
      (pyGetD d "items" (.list [])).isList = false →
      ConversationStore_load st (.parsed (.dict d)) = .ok ([], Option.none)) ∧
    (st.enabled = false →
      ∀ payload fs writeOk, ConversationStore_save st payload fs writeOk = fs) ∧
    (∀ payload fs, ConversationStore_save st payload fs false = fs) ∧
    (∀ fp payload fs, st.enabled = true → st.file_path = some fp →
      tmpPathOf fp ≠ fp →
      (ConversationStore_save st payload fs true).lookup fp = some payload ∧
      (ConversationStore_save st payload fs true).lookup (tmpPathOf fp) =
        Option.none) := by
  refine ⟨?_, ?_, ?_, ?_, ?_, ?_, ?_, ?_, ?_, ?_⟩
  · unfold ConversationStore_load; split <;> rfl
  · unfold ConversationStore_load; split <;> rfl
  · unfold ConversationStore_load; split <;> rfl
  · intro xs; unfold ConversationStore_load; split <;> rfl
  · intro s; unfold ConversationStore_load; split <;> rfl
  · intro d p hpath hpne hmm
    unfold ConversationStore_load
    split
    · rfl
    · simp only [hpath]
      have ht : pyTruthy (PyVal.str p) = true := by simp [pyTruthy, hpne]
      simp [ht, asStr, hmm]
  · intro d hfalse hitems
    unfold ConversationStore_load
    split
    · rfl
    · simp only [hfalse]
      cases hv : pyGetD d "items" (.list []) <;>
        simp [hv, PyVal.isList] at hitems ⊢
  · intro hdis payload fs writeOk
    unfold ConversationStore_save
    rw [if_pos (by simp [hdis])]
  · intro payload fs
    unfold ConversationStore_save
    split
    · rfl
    · split <;> rfl
  · intro fp payload fs henable hsome htmp
    have hsave : ConversationStore_save st payload fs true =
        storeRename (storeWrite fs (tmpPathOf fp) payload) (tmpPathOf fp) fp := by
      unfold ConversationStore_save
      rw [if_neg (by simp [henable]), hsome]
      rfl
    have hl : (storeWrite fs (tmpPathOf fp) payload).lookup (tmpPathOf fp) =
        some payload := by
      unfold storeWrite
      simp [List.lookup]
    have hren : storeRename (storeWrite fs (tmpPathOf fp) payload) (tmpPathOf fp) fp =
        storeWrite ((storeWrite fs (tmpPathOf fp) payload).filter
          (fun e => e.1 ≠ tmpPathOf fp)) fp payload := by
      unfold storeRename
      rw [hl]
    constructor
    · rw [hsave, hren]
      unfold storeWrite
      simp [List.lookup]
    · rw [hsave, hren]
      apply lookup_eq_none_of_all_ne
      intro e he
      unfold storeWrite at he
      rcases List.mem_cons.mp he with rfl | he2
      · exact fun hh => htmp hh.symm
      · have h1 := (List.mem_filter.mp he2).1
        have h2 := (List.mem_filter.mp h1).2
        exact of_decide_eq_true h2

/-- C8 witness: an I/O failure loads `([], None)`, and a successful save
lands the payload at the target path with the temporary gone. -/
theorem conversation_store_contract_witness :
    ConversationStore_load demoStore .ioError = .ok ([], Option.none) ∧
    (ConversationStore_save demoStore (.str "payload") [] true).lookup
      ["home", "state", "abc.json"] = some (.str "payload") ∧
    (ConversationStore_save demoStore (.str "payload") [] true).lookup
      (tmpPathOf ["home", "state", "abc.json"]) = Option.none := by
  have h := conversation_store_contract demoStore
  have h10 := h.2.2.2.2.2.2.2.2.2 ["home", "state", "abc.json"] (.str "payload") []
    rfl rfl (by decide)
  exact ⟨h.1, h10.1, h10.2⟩

/-- The byte loop returns the clipped images of an initial segment of its
input, the whole input when it does not flag byte truncation. -/
theorem takeBytesLoop_shape (maxBytes : Nat) :
    ∀ (ws : List String) (used : Nat) (first : Bool),
      ∃ k, k ≤ ws.length ∧
        (takeBytesLoop maxBytes ws used first).1 = (ws.take k).map clipLine ∧
        ((takeBytesLoop maxBytes ws used first).2 = false → k = ws.length) := by
  intro ws
  induction ws with
  | nil =>
    intro used first
    exact ⟨0, by simp [takeBytesLoop]⟩
  | cons l rest ih =>
    intro used first
    by_cases hc : maxBytes <
        used + ((clipLine l).utf8ByteSize + (if first then 0 else 1))
    · refine ⟨0, by simp, ?_, ?_⟩
      · simp [takeBytesLoop, hc]
      · simp [takeBytesLoop, hc]
    · rcases ih (used + ((clipLine l).utf8ByteSize + (if first then 0 else 1)))
        false with ⟨k, hk, h1, h2⟩
      refine ⟨k + 1, by simpa using Nat.succ_le_succ hk, ?_, ?_⟩
      · simp only [takeBytesLoop, if_neg hc, List.take_succ_cons, List.map_cons]
        rw [h1]
      · intro h
        simp only [takeBytesLoop, if_neg hc] at h
        simp [h2 h]

/-- The byte loop accepts at least the first line when that line fits the
budget on its own. -/
theorem takeBytesLoop_progress (maxBytes : Nat) (l : String) (rest : List String)
    (h : (clipLine l).utf8ByteSize ≤ maxBytes) :
    (takeBytesLoop maxBytes (l :: rest) 0 true).1 ≠ [] := by
  have hc : ¬ (maxBytes < (clipLine l).utf8ByteSize) := by omega
  simp [takeBytesLoop, hc]

/-- Reading at or past the end of the file yields an empty, non-truncated
slice, ending the iteration with no further lines. -/
theorem collectLines_past_end (L : List String) (limit maxBytes offset fuel : Nat)
    (h : L.length ≤ offset) :
    collectLines L limit maxBytes offset (fuel + 1) = some (L.drop offset) := by
  have hslice : sliceLines L offset limit maxBytes =
      { offset := L.length, limit := limit, total_lines := L.length,
        lines := [], truncated := false, truncated_by_bytes := false } := by
    simp [sliceLines, Nat.min_eq_right h, List.drop_length, takeBytesLoop]
  unfold collectLines
  rw [hslice]
  simp [List.drop_eq_nil_of_le h]

/-- Under the amended side conditions the iteration, given enough fuel,
returns exactly the suffix of the line list from `offset` on. -/
theorem collectLines_complete (L : List String) (limit maxBytes : Nat)
    (hlim : 1 ≤ limit)
    (hlen : ∀ l ∈ L, l.length ≤ MAX_LINE_LENGTH)
    (hbytes : ∀ l ∈ L, l.utf8ByteSize ≤ maxBytes) :
    ∀ n offset, L.length - offset ≤ n →
      collectLines L limit maxBytes offset (n + 1) = some (L.drop offset) := by
  intro n
  induction n with
  | zero =>
    intro offset h0
    exact collectLines_past_end L limit maxBytes offset 0 (by omega)
  | succ m ih =>
    intro offset hOff
    by_cases hge : L.length ≤ offset
    · exact collectLines_past_end L limit maxBytes offset (m + 1) hge
    · push_neg at hge
      have hmin : min offset L.length = offset := Nat.min_eq_left (Nat.le_of_lt hge)
      have hclip : ∀ l ∈ (L.drop offset).take limit, clipLine l = l := by
        intro l hl
        have hmem : l ∈ L := List.mem_of_mem_drop (List.mem_of_mem_take hl)
        unfold clipLine
        rw [if_pos (hlen l hmem)]
      have hwlen : ((L.drop offset).take limit).length =
          min limit (L.length - offset) := by
        rw [List.length_take, List.length_drop]
      have hwpos : 0 < ((L.drop offset).take limit).length := by
        rw [hwlen]
        omega
      obtain ⟨l₀, rest, hw⟩ : ∃ l₀ rest, (L.drop offset).take limit = l₀ :: rest := by
        cases hcase : (L.drop offset).take limit with
        | nil => rw [hcase] at hwpos; simp at hwpos
        | cons a b => exact ⟨a, b, rfl⟩
      obtain ⟨k, hk, hshape, hfull⟩ :=
        takeBytesLoop_shape maxBytes ((L.drop offset).take limit) 0 true
      have hne : (takeBytesLoop maxBytes ((L.drop offset).take limit) 0 true).1 ≠ [] := by
        rw [hw]
        apply takeBytesLoop_progress
        rw [hclip l₀ (by rw [hw]; exact List.mem_cons_self _ _)]
        exact hbytes l₀
          (List.mem_of_mem_drop (List.mem_of_mem_take (by rw [hw]; exact List.mem_cons_self _ _)))
      have hk1 : 1 ≤ k := by
        rcases Nat.eq_zero_or_pos k with hk0 | hk0
        · rw [hk0] at hshape
          simp at hshape
          exact absurd hshape hne
        · exact hk0
      have hkle : k ≤ limit := le_trans hk (by rw [hwlen]; exact Nat.min_le_left _ _)
      have hkdrop : k ≤ L.length - offset :=
        le_trans hk (by rw [hwlen]; exact Nat.min_le_right _ _)
      have hlines : (takeBytesLoop maxBytes ((L.drop offset).take limit) 0 true).1 =
          (L.drop offset).take k := by
        rw [hshape]
        have hid : (((L.drop offset).take limit).take k).map clipLine =
            ((L.drop offset).take limit).take k := by
          have := List.map_congr_left (l := ((L.drop offset).take limit).take k)
            (f := clipLine) (g := id)
            (fun a ha => hclip a (List.mem_of_mem_take ha))
          rw [this, List.map_id]
        rw [hid, List.take_take, Nat.min_eq_left hkle]
      have hlineslen :
          (takeBytesLoop maxBytes ((L.drop offset).take limit) 0 true).1.length = k := by
        rw [hlines, List.length_take, List.length_drop, Nat.min_eq_left hkdrop]
      have hslice : sliceLines L offset limit maxBytes =
          { offset := offset, limit := limit, total_lines := L.length,
            lines := (L.drop offset).take k,
            truncated := (takeBytesLoop maxBytes ((L.drop offset).take limit) 0 true).2 ||
              decide (offset + k < L.length),
            truncated_by_bytes :=
              (takeBytesLoop maxBytes ((L.drop offset).take limit) 0 true).2 } := by
        simp only [sliceLines]
        rw [hmin, hlines]
        have hlen2 : offset + ((L.drop offset).take k).length = offset + k := by
          rw [List.length_take, List.length_drop, Nat.min_eq_left hkdrop]
        rw [hlen2]
      unfold collectLines
      rw [hslice]
      unfold FileSlice.last_line_read
      show (if ((takeBytesLoop maxBytes ((L.drop offset).take limit) 0 true).2 ||
          decide (offset + k < L.length)) = true then
        Option.map (fun rest => (List.take k (List.drop offset L)) ++ rest)
          (collectLines L limit maxBytes (offset + (List.take k (List.drop offset L)).length) (m + 1))
      else some (List.take k (List.drop offset L))) = some (List.drop offset L)
      have hlen2 : (List.take k (List.drop offset L)).length = k := by
        rw [List.length_take, List.length_drop]
        exact Nat.min_eq_left hkdrop
      rw [hlen2]
      by_cases htr : ((takeBytesLoop maxBytes ((L.drop offset).take limit) 0 true).2 ||
          decide (offset + k < L.length)) = true
      · rw [if_pos htr, ih (offset + k) (by omega)]
        show some ((List.take k (List.drop offset L)) ++ L.drop (offset + k)) =
          some (L.drop offset)
        congr 1
        have hdd : (L.drop offset).drop k = L.drop (offset + k) := by
          rw [List.drop_drop, Nat.add_comm]
        rw [← hdd, List.take_append_drop]
      · rw [if_neg htr]
        have hb : ((takeBytesLoop maxBytes ((L.drop offset).take limit) 0 true).2 ||
            decide (offset + k < L.length)) = false := by
          cases hexpr : ((takeBytesLoop maxBytes ((L.drop offset).take limit) 0 true).2 ||
              decide (offset + k < L.length))
          · rfl
          · exact absurd hexpr htr
        have hnotlt : ¬ (offset + k < L.length) := by
          rcases Bool.or_eq_false_iff.mp hb with ⟨-, h2⟩
          simpa using h2
        congr 1
        have hfullk : (L.drop offset).length ≤ k := by
          rw [List.length_drop]
          omega
        exact List.take_of_length_le hfullk

/-- The `truncated` flag of a slice decomposes exactly into
"more lines after `last_line_read`" or "byte-truncated". -/
theorem sliceLines_truncated_iff (L : List String) (offset limit maxBytes : Nat) :
    ((sliceLines L offset limit maxBytes).truncated = true ↔
      ((sliceLines L offset limit maxBytes).last_line_read <
          (sliceLines L offset limit maxBytes).total_lines ∨
        (sliceLines L offset limit maxBytes).truncated_by_bytes = true)) := by
  have h : sliceLines L offset limit maxBytes =
      { offset := min offset L.length
        limit := limit
        total_lines := L.length
        lines := (takeBytesLoop maxBytes
          ((L.drop (min offset L.length)).take limit) 0 true).1
        truncated := (takeBytesLoop maxBytes
            ((L.drop (min offset L.length)).take limit) 0 true).2 ||
          decide (min offset L.length +
            (takeBytesLoop maxBytes
              ((L.drop (min offset L.length)).take limit) 0 true).1.length < L.length)
        truncated_by_bytes := (takeBytesLoop maxBytes
          ((L.drop (min offset L.length)).take limit) 0 true).2 } := rfl
  rw [h]
  unfold FileSlice.last_line_read
  simp only [Bool.or_eq_true, decide_eq_true_eq]
  tauto

/-- With `max_bytes = 5`, slicing the one-line file `abcdef` never makes
progress: every iteration returns the empty byte-truncated slice at
offset 0. -/
theorem collectSlices_stuck :
    ∀ fuel, collectSlices "abcdef" 2000 5 0 fuel = Option.none := by
  intro fuel
  induction fuel with
  | zero => rfl
  | succ m ih =>
    have hs : sliceLines (pySplitOnChar '\n' "abcdef") 0 2000 5 =
        { offset := 0, limit := 2000, total_lines := 1, lines := [],
          truncated := true, truncated_by_bytes := true } := by decide
    unfold collectSlices at ih ⊢
    unfold collectLines
    rw [hs]
    show Option.map (fun rest => ([] : List String) ++ rest)
      (collectLines (pySplitOnChar '\n' "abcdef") 2000 5 0 m) = Option.none
    rw [ih]
    rfl

/-- C5 counterexample: the round-trip claim fails as stated — for the text
file `abcdef` read with `max_bytes = 5`, iterating with
`offset = last_line_read` never reaches `truncated = false` and never
yields the file's line. -/
theorem read_file_slice_round_trip_counterexample :
    ¬ readSliceRoundTrip "abcdef" 2000 5 := by
  rintro ⟨fuel, h⟩
  rw [collectSlices_stuck fuel] at h
  cases h

/-- C5 (amended): for a text file each of whose lines has at most
`MAX_LINE_LENGTH` characters and at most `max_bytes` UTF-8 bytes, and a
positive line limit, iterating `read_file_slice` with
`offset = last_line_read` until `truncated = false` yields every line of
the file exactly once, in order; and for every slice, `truncated = true`
holds exactly when `last_line_read < total_lines` or `truncated_by_bytes`
is set. -/
theorem read_file_slice_round_trip (text : String) (limit maxBytes : Nat)
    (hlim : 1 ≤ limit)
    (hlen : ∀ l ∈ pySplitOnChar '\n' text, l.length ≤ MAX_LINE_LENGTH)
    (hbytes : ∀ l ∈ pySplitOnChar '\n' text, l.utf8ByteSize ≤ maxBytes) :
    readSliceRoundTrip text limit maxBytes ∧
    ∀ offset, ((read_file_slice text offset limit maxBytes).truncated = true ↔
      ((read_file_slice text offset limit maxBytes).last_line_read <
          (read_file_slice text offset limit maxBytes).total_lines ∨
        (read_file_slice text offset limit maxBytes).truncated_by_bytes = true)) := by
  constructor
  · refine ⟨(pySplitOnChar '\n' text).length + 1, ?_⟩
    have h := collectLines_complete (pySplitOnChar '\n' text) limit maxBytes
      hlim hlen hbytes (pySplitOnChar '\n' text).length 0 (by omega)
    unfold collectSlices
    simpa using h
  · intro offset
    exact sliceLines_truncated_iff (pySplitOnChar '\n' text) offset limit maxBytes

/-- C5 witness: the two-line file `ab\ncd` read one line at a time with a
10-byte budget round-trips. -/
theorem read_file_slice_round_trip_witness :
    readSliceRoundTrip "ab\ncd" 1 10 :=
  (read_file_slice_round_trip "ab\ncd" 1 10 (by decide) (by decide) (by decide)).1

end Spec2Proof
